import Mathlib

/-!
# The scope chain and the tree-walking evaluator of `src/final/eval.js`

A shallow embedding of the `Scope` class and of the `evaluate` function.

* Host values are the type `Value`; objects, arrays and functions live in a
  store of cells and are referred to by address, scopes live in a store of
  their own and are referred to by index.
* A computation threads the store explicitly and ends in one of four ways
  (`Res`): a value, a thrown value, exhausted fuel, or a host operation that
  the embedding does not cover.
* Numbers are the integers of the safe range together with `NaN`; the two
  zeros are identified (no modelled operation tells them apart).
* An operand that is a plain object is converted as the host converts it, by
  a call of its `valueOf` or `toString`, which may be a function of the host
  with state of its own.
-/

namespace JsEval

/-! ## Values and syntax -/

/-- Runtime values. `ref` is an object, array or function (compared by
address); `error` is a host `Error` object with its constructor name and
message; `interruption` is an instance of `BlockInterruption`. -/
inductive Value where
  | undefined
  | null
  | bool (b : Bool)
  | num (n : Int)
  | nan
  | str (s : String)
  | ref (addr : Nat)
  | error (name : String) (message : String)
  | interruption (type : String) (value : Value) (label : Option String)
deriving DecidableEq, Repr

/-- The `value` field of a `Literal` node. -/
inductive Lit where
  | num (n : Int)
  | str (s : String)
  | bool (b : Bool)
  | null
deriving DecidableEq, Repr

/-- Syntax nodes, one constructor per `node.type` that `evaluate` switches on,
with the fields the evaluator reads. A child that the parser may leave `null`
is an `Option`. `prefixed` is the field `prefix` of an `UpdateExpression` (on
a `UnaryExpression` the parser always sets it to `true`). `Unsupported` stands
for every other node type. -/
inductive Node where
  | Literal (value : Lit)
  | Identifier (name : String)
  | RegExpLiteral
  | Program (body : List Node)
  | ExpressionStatement (expression : Node)
  | BlockStatement (body : List Node)
  | EmptyStatement
  | DebuggerStatement
  | AssignmentExpression (operator : String) (left right : Node)
  | FunctionDeclaration (id : String) (params : List String) (body : Node)
  | VariableDeclaration (kind : String) (declarations : List (String × Option Node))
  | IfStatement (test consequent : Node) (alternate : Option Node)
  | SwitchStatement (discriminant : Node) (cases : List (Option Node × List Node))
  | ContinueStatement (label : Option String)
  | BreakStatement (label : Option String)
  | WhileStatement (test body : Node)
  | ForStatement (init test update : Option Node) (body : Node)
  | LabeledStatement (label : String) (body : Node)
  | LogicalExpression (operator : String) (left right : Node)
  | BinaryExpression (operator : String) (left right : Node)
  | UnaryExpression (operator : String) (argument : Node)
  | UpdateExpression (operator : String) (prefixed : Bool) (argument : Node)
  | ConditionalExpression (test consequent alternate : Node)
  | ObjectExpression (properties : List (Node × Node))
  | MemberExpression (object property : Node) (computed : Bool)
  | ArrayExpression (elements : List (Option Node))
  | CallExpression (callee : Node) (arguments : List Node)
  | FunctionExpression (id : Option String) (params : List String) (body : Node)
  | ArrowFunctionExpression (params : List String) (body : Node)
  | TryStatement (block : Node) (handler : Option (String × Node)) (finalizer : Option Node)
  | ThrowStatement (argument : Node)
  | SequenceExpression (expressions : List Node)
  | ReturnStatement (argument : Option Node)
  | Unsupported (type : String) (start stop : Nat)

/-! ## The store -/

/-- Heap cells: a plain object (insertion-ordered own properties), an array,
a function created by the evaluator (its parameter names, its body and the
scope it closes over), or a function of the host that the caller of
`customEval` put into the initial bindings. Of the host functions the
embedding has one family, the counters `() => n++` closed over a variable `n`
of their own, which stand for every host function with state (`Math.random`,
`Date.now`). -/
inductive Cell where
  | object (props : List (String × Value))
  | array (elems : List Value)
  | function (params : List String) (body : Node) (scope : Nat)
  | hostCounter (next : Int)

/-- What `this.variables` of a `Scope` holds: the constructor stores its first
argument, which the callers in the file pass either as an object
(`customEval`) or as one of the strings `"function"` and `"block"`
(`evaluate`). An object is held by reference, as the address of its cell, so
that two scopes built on the same object share it. -/
inductive Vars where
  | object (addr : Nat)
  | string (s : String)
deriving DecidableEq, Repr

/-- The fields of a `Scope` instance; `vars` is the field `variables`. -/
structure Scope where
  vars : Vars
  parent : Option Nat
  childScopes : List Nat
  type : String
deriving DecidableEq, Repr

/-- The store: all scopes and all heap cells created so far. -/
structure Heap where
  scopes : List Scope
  cells : List Cell

/-- How a computation ends. `timeout` is exhausted fuel; `unmodelled` is a
host operation outside the embedding (for example a property inherited from a
built-in prototype, or arithmetic that leaves the safe integer range). -/
inductive Res (α : Type) where
  | ok (a : α) (h : Heap)
  | thrown (e : Value) (h : Heap)
  | timeout
  | unmodelled

/-- The returned value, when the computation returned. -/
def Res.value? {α : Type} : Res α → Option α
  | .ok a _ => some a
  | _ => none

/-- The thrown value, when the computation threw. -/
def Res.thrown? {α : Type} : Res α → Option Value
  | .thrown e _ => some e
  | _ => none

/-- The final store of a computation that returned or threw. -/
def Res.heap? {α : Type} : Res α → Option Heap
  | .ok _ h => some h
  | .thrown _ h => some h
  | _ => none

/-- Whether the computation ended by throwing. -/
def Res.isThrown {α : Type} : Res α → Bool
  | .thrown _ _ => true
  | _ => false

/-- Store-passing computations. -/
def M (α : Type) : Type := Heap → Res α

instance : Monad M where
  pure a := fun h => Res.ok a h
  bind m f := fun h =>
    match m h with
    | .ok a h1 => f a h1
    | .thrown e h1 => .thrown e h1
    | .timeout => .timeout
    | .unmodelled => .unmodelled

instance : LawfulMonad M := LawfulMonad.mk' M
  (by
    intro α x
    funext h
    show (x >>= fun a => pure (id a)) h = x h
    show (match x h with
      | .ok a h1 => Res.ok (id a) h1
      | .thrown e h1 => .thrown e h1
      | .timeout => .timeout
      | .unmodelled => .unmodelled) = x h
    cases x h <;> rfl)
  (by intros; rfl)
  (by
    intro α β γ x f g
    funext h
    show (match (match x h with
        | .ok a h1 => f a h1
        | .thrown e h1 => .thrown e h1
        | .timeout => .timeout
        | .unmodelled => .unmodelled) with
      | .ok a h1 => g a h1
      | .thrown e h1 => .thrown e h1
      | .timeout => .timeout
      | .unmodelled => .unmodelled) =
      (match x h with
      | .ok a h1 => (f a >>= g) h1
      | .thrown e h1 => .thrown e h1
      | .timeout => .timeout
      | .unmodelled => .unmodelled)
    cases x h <;> rfl)

/-- The statement `throw e`. -/
def throwValue {α : Type} (e : Value) : M α := fun h => Res.thrown e h

/-- A step the embedding does not cover. -/
def unmodelled {α : Type} : M α := fun _ => Res.unmodelled

/-- Exhausted fuel. -/
def timeout {α : Type} : M α := fun _ => Res.timeout

/-- A `TypeError` raised by the host (the message is the engine's own). -/
def typeError (message : String) : Value := .error "TypeError" message

/-- A `ReferenceError` raised by the host. -/
def referenceError (message : String) : Value := .error "ReferenceError" message

/-! ## Host value operations -/

/-- JavaScript truthiness (`ToBoolean`). -/
def Value.truthy : Value → Bool
  | .undefined => false
  | .null => false
  | .bool b => b
  | .num n => n != 0
  | .nan => false
  | .str s => s != ""
  | .ref _ => true
  | .error _ _ => true
  | .interruption _ _ _ => true

/-- The value of a literal node. -/
def Lit.toValue : Lit → Value
  | .num n => .num n
  | .str s => .str s
  | .bool b => .bool b
  | .null => .null

/-- Own property names of `Object.prototype` (with the legacy accessors):
reading one of them from an object that has no own property of that name
reaches a host built-in. -/
def objectPrototypeNames : List String :=
  ["constructor", "hasOwnProperty", "isPrototypeOf", "propertyIsEnumerable",
   "toLocaleString", "toString", "valueOf", "__proto__", "__defineGetter__",
   "__defineSetter__", "__lookupGetter__", "__lookupSetter__"]

/-- Own property names of `String.prototype` (ECMAScript 2024, legacy HTML
methods included). -/
def stringPrototypeNames : List String :=
  ["at", "anchor", "big", "blink", "bold", "charAt", "charCodeAt", "codePointAt",
   "concat", "endsWith", "fixed", "fontcolor", "fontsize", "includes", "indexOf",
   "isWellFormed", "italics", "lastIndexOf", "link", "localeCompare", "match",
   "matchAll", "normalize", "padEnd", "padStart", "repeat", "replace",
   "replaceAll", "search", "slice", "small", "split", "strike", "sub", "substr",
   "substring", "sup", "startsWith", "toLocaleLowerCase", "toLocaleUpperCase",
   "toLowerCase", "toUpperCase", "toWellFormed", "trim", "trimEnd", "trimLeft",
   "trimRight", "trimStart"]

/-- Own property read `o[name]` on a plain object with the given own
properties; `none` when the read reaches a built-in of `Object.prototype`. -/
def objectGet (props : List (String × Value)) (name : String) : Option Value :=
  match props.lookup name with
  | some v => some v
  | none => if objectPrototypeNames.contains name then none else some .undefined

/-- Whether every character of a string lies in the basic plane, so that its
characters are its UTF-16 code units. -/
def inBasicPlane (s : String) : Bool := s.data.all fun c => c.toNat < 65536

/-- Property read `s[name]` on a primitive string: `length`, a canonical
index, or `undefined`. The host counts code units, so a string with a character
beyond the basic plane is not covered (`none`); `none` also when the read
reaches a built-in of `String.prototype` or `Object.prototype`. -/
def stringGet (s : String) (name : String) : Option Value :=
  if !inBasicPlane s then none
  else if name = "length" then some (.num s.length)
  else match (List.range s.length).find? (fun i => toString i = name) with
    | some i => some (.str (String.singleton (s.data.getD i ' ')))
    | none =>
      if stringPrototypeNames.contains name || objectPrototypeNames.contains name
      then none else some .undefined

/-- Insertion-ordered property write: overwrite in place, or append. -/
def upsert (props : List (String × Value)) (name : String) (value : Value) :
    List (String × Value) :=
  match props with
  | [] => [(name, value)]
  | (k, v) :: rest =>
    if k = name then (k, value) :: rest else (k, v) :: upsert rest name value

/-- The read `this.variables[name]`, in the given cells; `none` when the read
is not covered (a built-in of a prototype, or `variables` is not a plain
object or a string). -/
def Vars.get (cells : List Cell) : Vars → String → Option Value
  | .object addr, name =>
    match cells[addr]? with
    | some (.object props) => objectGet props name
    | _ => none
  | .string s, name => stringGet s name

/-- The outcome of the write `this.variables[name] = value`. -/
inductive Write where
  | done (cells : List Cell)
  | typeError
  | unmodelled

/-- The write `this.variables[name] = value` in the strict code of the class
body: on a plain object it creates or overwrites the own property, in the cell
of that object; on a primitive string it raises a `TypeError`. The name
`__proto__` is not covered: the host runs the accessor of `Object.prototype`
and creates no own property, on an object and on a string alike. -/
def Vars.set (cells : List Cell) : Vars → String → Value → Write
  | .object addr, name, value =>
    match cells[addr]? with
    | some (.object props) =>
      if name = "__proto__" then .unmodelled
      else .done (cells.set addr (.object (upsert props name value)))
    | _ => .unmodelled
  | .string _, name, _ => if name = "__proto__" then .unmodelled else .typeError

/-! ## The class `Scope` -/

/-- The constructor `new Scope(initial, parent)`: `variables` is
`initial || {}` (an absent or empty-string `initial` is falsy, and a fresh
empty object is allocated for it; any other `initial` is stored as it is),
`type` is always `"block"`, and the new scope is pushed onto
`parent.childScopes` when a parent is given. Returns the index of the new
scope. -/
def Scope.new (initial : Option Vars) (parent : Option Nat) : M Nat := fun h =>
  let fresh : Bool :=
    match initial with
    | none => true
    | some (.string s) => s = ""
    | some (.object _) => false
  let vars : Vars :=
    match initial with
    | some (.object addr) => .object addr
    | some (.string s) => if s = "" then .object h.cells.length else .string s
    | none => .object h.cells.length
  let cells := if fresh then h.cells ++ [.object []] else h.cells
  let this := h.scopes.length
  let scopes := h.scopes ++ [{ vars := vars, parent := parent, childScopes := [], type := "block" }]
  let scopes :=
    match parent with
    | none => scopes
    | some p =>
      match scopes[p]? with
      | some ps => scopes.set p { ps with childScopes := ps.childScopes ++ [this] }
      | none => scopes
  Res.ok this { scopes := scopes, cells := cells }

/-- The recursion of `Scope.get` along the parent links, bounded by `fuel`
scopes. `none` when the fuel is exhausted, a link dangles, or the read is not
covered. -/
def Scope.getAux (scopes : List Scope) (cells : List Cell) : Nat → Nat → String → Option Value
  | 0, _, _ => none
  | fuel + 1, this, name =>
    match scopes[this]? with
    | none => none
    | some s =>
      match s.vars.get cells name with
      | none => none
      | some v =>
        if v.truthy then some v
        else match s.parent with
          | some p => Scope.getAux scopes cells fuel p name
          | none => some .undefined

/-- The method `get(name)` of the scope with index `this`. A chain of parent
links visits each scope at most once, so the number of scopes is enough fuel. -/
def Scope.get (h : Heap) (this : Nat) (name : String) : Option Value :=
  Scope.getAux h.scopes h.cells h.scopes.length this name

/-- The method `set(name, value)`: throws `Error("Can't reassign const")` when
the scope's `type` field is `"const"`, else writes `this.variables[name]`. -/
def Scope.set (this : Nat) (name : String) (value : Value) : M Unit := fun h =>
  match h.scopes[this]? with
  | none => Res.unmodelled
  | some s =>
    if s.type = "const" then Res.thrown (.error "Error" "Can't reassign const") h
    else match s.vars.set h.cells name value with
      | .done cells => Res.ok () { h with cells := cells }
      | .typeError => Res.thrown (typeError "Cannot create property on string") h
      | .unmodelled => Res.unmodelled

/-- The method `declare`: its body is a bare `return`, so a call evaluates its
arguments and returns `undefined` without touching the scope. The callers pass
`(kind, name, value)`. -/
def Scope.declare (_this : Nat) (_kind : String) (_name : String) (_value : Value) : M Value :=
  pure .undefined

/-! ## Operators of the host language -/

/-- A number of the safe integer range, where integer arithmetic on doubles is
exact; `none` outside it. -/
def safeNum (n : Int) : Option Value :=
  if n.natAbs ≤ 9007199254740992 then some (.num n) else none

/-- The value of a non-empty run of ASCII decimal digits. -/
def digitsValue (cs : List Char) : Option Nat :=
  if cs ≠ [] ∧ cs.all (fun c => 48 ≤ c.toNat && c.toNat ≤ 57) = true
  then some (cs.foldl (fun acc c => 10 * acc + (c.toNat - 48)) 0) else none

/-- The value of an optional sign followed by decimal digits. -/
def decimalInteger (cs : List Char) : Option Int :=
  match cs with
  | [] => none
  | c :: rest =>
    if c = '-' then (digitsValue rest).map fun n => -(n : Int)
    else if c = '+' then (digitsValue rest).map fun n => (n : Int)
    else (digitsValue cs).map fun n => (n : Int)

/-- The printable ASCII characters that occur in no numeric string: all but
the digits, the signs, the point, and the letters of an exponent, of a
hexadecimal, octal or binary literal and of `Infinity`. -/
def neverNumeric (c : Char) : Bool :=
  33 ≤ c.toNat && c.toNat ≤ 126 && !("0123456789+-.abcdefABCDEFxXoOInity".data.contains c)

/-- The conversion `StringToNumber` on the strings whose value is an integer
of the safe range or `NaN`: the empty string is `0`, an optional sign followed
by decimal digits is that integer, and a string with a character that occurs in
no numeric string is `NaN`. Other strings (white space, fractions, exponents,
other radices, `Infinity`) are not covered. -/
def stringToNumber (s : String) : Option Value :=
  if s = "" then some (.num 0)
  else match decimalInteger s.data with
    | some n => safeNum n
    | none => if s.data.any neverNumeric then some .nan else none

/-- The conversion `ToNumber` on the values whose conversion is an integer or
`NaN`; objects are not covered. -/
def toNumber : Value → Option Value
  | .undefined => some .nan
  | .null => some (.num 0)
  | .bool b => some (.num (if b then 1 else 0))
  | .num n => safeNum n
  | .nan => some .nan
  | .str s => stringToNumber s
  | _ => none

/-- The conversion `ToString` on primitives. An integer of the safe range is
printed in decimal notation (the host switches to exponent notation from
`1e21` on, far beyond that range); an integer outside the range is no double
of the embedding. -/
def toStr : Value → Option String
  | .undefined => some "undefined"
  | .null => some "null"
  | .bool b => some (if b then "true" else "false")
  | .num n => if n.natAbs ≤ 9007199254740992 then some (toString n) else none
  | .nan => some "NaN"
  | .str s => some s
  | _ => none

/-- A numeric operator applied after `ToNumber` on both operands. -/
def arith (op : Int → Int → Option Value) (left right : Value) : Option Value :=
  match toNumber left, toNumber right with
  | some (.num a), some (.num b) => op a b
  | some _, some _ => some .nan
  | _, _ => none

/-- The operator `+`: concatenation when an operand is a string, else
numeric addition. -/
def plus (left right : Value) : Option Value :=
  match left, right with
  | .str a, b => (toStr b).map (fun t => .str (a ++ t))
  | a, .str b => (toStr a).map (fun t => .str (t ++ b))
  | a, b => arith (fun x y => safeNum (x + y)) a b

/-- Lexicographic order on code-unit sequences. -/
def unitsLt : List Nat → List Nat → Bool
  | _, [] => false
  | [], _ :: _ => true
  | a :: as, b :: bs => a < b || (a == b && unitsLt as bs)

/-- The relation `left < right` of the host: code-unit order on two strings of
the basic plane, numeric order after `ToNumber` otherwise (`false` when an
operand is `NaN`). -/
def lessThan (left right : Value) : Option Bool :=
  match left, right with
  | .str a, .str b =>
    if (a.data ++ b.data).all (fun c => c.toNat < 65536)
    then some (unitsLt (a.data.map Char.toNat) (b.data.map Char.toNat)) else none
  | a, b =>
    match toNumber a, toNumber b with
    | some (.num x), some (.num y) => some (x < y)
    | some _, some _ => some false
    | _, _ => none

/-- The relation `left <= right` of the host. -/
def lessEq (left right : Value) : Option Bool :=
  match left, right with
  | .str a, .str b =>
    if (a.data ++ b.data).all (fun c => c.toNat < 65536)
    then some (!unitsLt (b.data.map Char.toNat) (a.data.map Char.toNat)) else none
  | a, b =>
    match toNumber a, toNumber b with
    | some (.num x), some (.num y) => some (x ≤ y)
    | some _, some _ => some false
    | _, _ => none

/-- Strict equality `===`. Error and interruption objects carry no identity in
the embedding, so comparing two of them is not covered; nor are two numbers of
which one lies outside the safe range. -/
def strictEq (left right : Value) : Option Bool :=
  match left, right with
  | .nan, _ => some false
  | _, .nan => some false
  | .error _ _, .error _ _ => none
  | .interruption _ _ _, .interruption _ _ _ => none
  | .num a, .num b =>
    if a.natAbs ≤ 9007199254740992 ∧ b.natAbs ≤ 9007199254740992 then some (a == b) else none
  | a, b => some (a == b)

/-- Loose equality `==` where no object-to-primitive conversion is needed: a
string and a number (or boolean) are compared after `ToNumber`. -/
def looseEq (left right : Value) : Option Bool :=
  match left, right with
  | .undefined, .undefined => some true
  | .undefined, .null => some true
  | .null, .undefined => some true
  | .null, .null => some true
  | .undefined, _ => some false
  | .null, _ => some false
  | _, .undefined => some false
  | _, .null => some false
  | .str a, .str b => some (a == b)
  | .ref a, .ref b => some (a == b)
  | a, b =>
    match toNumber a, toNumber b with
    | some (.num x), some (.num y) => some (x == y)
    | some _, some _ => some false
    | _, _ => none

/-- The operators that the `switch` of the `BinaryExpression` case lists. -/
def binaryOperators : List String :=
  ["==", "!=", "===", "!==", "<", "<=", ">", ">=", "<<", ">>", ">>>", "+", "-",
   "*", "/", "%", "|", "^", "&", "in", "instanceof"]

/-- The host's result of `left operator right`; `none` where the embedding
does not cover the operator or the operands (division, shifts, bitwise
operators, `in`, `instanceof`, conversions of objects). -/
def binaryOp (operator : String) (left right : Value) : Option Value :=
  if operator = "==" then (looseEq left right).map Value.bool
  else if operator = "!=" then (looseEq left right).map (fun b => Value.bool (!b))
  else if operator = "===" then (strictEq left right).map Value.bool
  else if operator = "!==" then (strictEq left right).map (fun b => Value.bool (!b))
  else if operator = "<" then (lessThan left right).map Value.bool
  else if operator = "<=" then (lessEq left right).map Value.bool
  else if operator = ">" then (lessThan right left).map Value.bool
  else if operator = ">=" then (lessEq right left).map Value.bool
  else if operator = "+" then plus left right
  else if operator = "-" then arith (fun x y => safeNum (x - y)) left right
  else if operator = "*" then arith (fun x y => safeNum (x * y)) left right
  else if operator = "%" then
    arith (fun x y => if y = 0 then some .nan else some (.num (x.tmod y))) left right
  else none

/-- The operators that the `switch` of the `UnaryExpression` case lists. -/
def unaryOperators : List String := ["-", "+", "!", "~", "typeof"]

/-- The host's result of a unary operator; `typeof` of a reference needs the
store and is handled by the evaluator. -/
def unaryOp (operator : String) (v : Value) : Option Value :=
  if operator = "-" then
    match toNumber v with
    | some (.num x) => some (.num (-x))
    | other => other
  else if operator = "+" then toNumber v
  else if operator = "!" then some (.bool (!v.truthy))
  else if operator = "~" then
    match toNumber v with
    | some (.num x) => if x.natAbs < 2147483648 then some (.num (-x - 1)) else none
    | some _ => some (.num (-1))
    | none => none
  else if operator = "typeof" then
    match v with
    | .undefined => some (.str "undefined")
    | .null => some (.str "object")
    | .bool _ => some (.str "boolean")
    | .num _ => some (.str "number")
    | .nan => some (.str "number")
    | .str _ => some (.str "string")
    | .error _ _ => some (.str "object")
    | .interruption _ _ _ => some (.str "object")
    | .ref _ => none
  else none

/-- The compound assignment operators of the `AssignmentExpression` case, each
with the binary operator it applies. -/
def assignmentOperators : List (String × String) :=
  [("+=", "+"), ("-=", "-"), ("/=", "/"), ("*=", "*"), ("%=", "%"), ("<<=", "<<"),
   (">>=", ">>"), (">>>=", ">>>"), ("|=", "|"), ("^=", "^"), ("&=", "&")]

/-- Lift a host result into a computation. -/
def liftOpt {α : Type} : Option α → M α
  | some a => pure a
  | none => unmodelled

/-! ## Property access on host values -/

/-- The conversion of a computed key to a property name. -/
def toPropertyKey : Value → Option String := toStr

/-- The name read by `node.name`, as a property key: the name of an
`Identifier`; any other node has no `name` field, and the key made from
`undefined` is `"undefined"`. -/
def Node.nameKey : Node → String
  | .Identifier name => name
  | _ => "undefined"

/-- Property read on an array: `length` or a canonical index; the names
inherited from `Array.prototype` are not covered. -/
def arrayGet (elems : List Value) (name : String) : Option Value :=
  if name = "length" then some (.num elems.length)
  else match (List.range elems.length).find? (fun i => toString i = name) with
    | some i => some (elems.getD i .undefined)
    | none => none

/-- The read `obj[key]`. Reading from `undefined` or `null` throws. -/
def getProp (obj key : Value) : M Value := fun h =>
  match obj with
  | .undefined => Res.thrown (typeError "Cannot read properties of undefined") h
  | .null => Res.thrown (typeError "Cannot read properties of null") h
  | .str s =>
    match (toPropertyKey key).bind (stringGet s) with
    | some v => Res.ok v h
    | none => Res.unmodelled
  | .ref a =>
    match h.cells[a]?, toPropertyKey key with
    | some (.object props), some k => liftOpt (objectGet props k) h
    | some (.array elems), some k => liftOpt (arrayGet elems k) h
    | _, _ => Res.unmodelled
  | _ => Res.unmodelled

/-- The write `obj[key] = value` in the sloppy code of `evaluate`: it creates
or overwrites an own property of a plain object or an existing element of an
array, is silently dropped on a primitive, and throws on `undefined` and
`null`. -/
def setProp (obj key value : Value) : M Unit := fun h =>
  match obj with
  | .undefined => Res.thrown (typeError "Cannot set properties of undefined") h
  | .null => Res.thrown (typeError "Cannot set properties of null") h
  | .str _ => Res.ok () h
  | .num _ => Res.ok () h
  | .nan => Res.ok () h
  | .bool _ => Res.ok () h
  | .ref a =>
    match h.cells[a]?, toPropertyKey key with
    | some (.object props), some k =>
      if k = "__proto__" then Res.unmodelled
      else Res.ok () { h with cells := h.cells.set a (.object (upsert props k value)) }
    | some (.array elems), some k =>
      match (List.range elems.length).find? (fun i => toString i = k) with
      | some i => Res.ok () { h with cells := h.cells.set a (.array (elems.set i value)) }
      | none => Res.unmodelled
    | _, _ => Res.unmodelled
  | _ => Res.unmodelled

/-- Allocation of a fresh heap cell. -/
def alloc (c : Cell) : M Value := fun h =>
  Res.ok (.ref h.cells.length) { h with cells := h.cells ++ [c] }

/-- The destructuring `let [a, b] = v`: the first two elements of an array or
the first two characters of a string; other values are not iterable. -/
def destructurePair (v : Value) : M (Value × Value) := fun h =>
  match v with
  | .ref a =>
    match h.cells[a]? with
    | some (.array elems) => Res.ok (elems.getD 0 .undefined, elems.getD 1 .undefined) h
    | some _ => Res.thrown (typeError "object is not iterable") h
    | none => Res.unmodelled
  | .str s =>
    let chars := s.data.map (fun c => Value.str (String.singleton c))
    Res.ok (chars.getD 0 .undefined, chars.getD 1 .undefined) h
  | .interruption _ _ _ => Res.unmodelled
  | _ => Res.thrown (typeError "value is not iterable") h

/-- The method `get` inside a computation. -/
def scopeGet (scope : Nat) (name : String) : M Value := fun h =>
  liftOpt (Scope.get h scope name) h

/-- The operator `typeof`, which needs the store for a reference. -/
def typeOf (v : Value) : M Value := fun h =>
  match v with
  | .ref a =>
    match h.cells[a]? with
    | some (.function _ _ _) => Res.ok (.str "function") h
    | some (.hostCounter _) => Res.ok (.str "function") h
    | some _ => Res.ok (.str "object") h
    | none => Res.unmodelled
  | _ => liftOpt (unaryOp "typeof" v) h

/-! ## Control signals -/

/-- Modelled from the spec: the class `BlockInterruption`, which `evaluate`
instantiates and tests with `instanceof` but which the file neither defines
nor imports. Following the data model of the spec, an instance is a control
signal tagged `break`, `continue` or `return`, carrying an optional label
(absent: `undefined`) and a payload value: `new BlockInterruption(type, value)`
with `value` defaulting to `undefined`. -/
def BlockInterruption.new (type : String) (value : Value) : Value :=
  .interruption type value none

/-- Modelled from the spec: `setLabel(name)` of `BlockInterruption`. -/
def BlockInterruption.setLabel (signal : Value) (name : String) : Value :=
  match signal with
  | .interruption type value _ => .interruption type value (some name)
  | v => v

/-- The test `ret instanceof BlockInterruption`. -/
def Value.isInterruption : Value → Bool
  | .interruption _ _ _ => true
  | _ => false

/-- The binding of the identifier `config`. `evaluate` reads `config` in the
loop and member-access cases, but `config` is neither a parameter nor a local
of `evaluate` nor declared in the file, so it resolves in the global
environment of the host. Only the two properties that are read matter. -/
structure Config where
  label : Value
  setObjPropVal : Value

/-- The read of `config`: a `ReferenceError` when the host declares no such
global (`none`, the case when the file is loaded as it stands). -/
def readConfig (config : Option Config) : M Config :=
  match config with
  | some c => pure c
  | none => throwValue (referenceError "config is not defined")

/-- The test `ret.getLabel() === undefined || ret.getLabel() === label`. -/
def labelMatches (signalLabel : Option String) (label : Value) : Bool :=
  match signalLabel with
  | none => true
  | some l => label == .str l

/-! ## The evaluator

The helpers below take the recursive call `ev node scope` as a parameter;
`evaluate` ties the knot by recursion on the fuel. -/

/-- The call `evaluate(node, scope)` on a child that may be `null`: the
dispatch `switch (node.type)` throws on `null` and `undefined`. -/
def evalChild (ev : Node → Nat → M Value) (node : Option Node) (scope : Nat) : M Value :=
  match node with
  | some n => ev n scope
  | none => throwValue (typeError "Cannot read properties of null (reading 'type')")

/-- The call `nodes.map((n) => evaluate(n, scope))`. -/
def evalAll (ev : Node → Nat → M Value) (scope : Nat) : List Node → M (List Value)
  | [] => pure []
  | n :: ns => do
    let v ← ev n scope
    let vs ← evalAll ev scope ns
    pure (v :: vs)

/-- The loop of the `BlockStatement` case; `ret` is the local of that name. -/
def evalBlock (ev : Node → Nat → M Value) (scope : Nat) : List Node → Value → M Value
  | [], ret => pure ret
  | expression :: rest, _ => do
    let ret ← ev expression scope
    if ret.isInterruption then pure ret else evalBlock ev scope rest ret

/-- The loop `node.declarations.forEach(...)` of the `VariableDeclaration`
case. -/
def evalDeclarations (ev : Node → Nat → M Value) (scope : Nat) (kind : String) :
    List (String × Option Node) → M Value
  | [] => pure .undefined
  | (name, init) :: rest => do
    match init with
    | some (.FunctionExpression none _ _) =>
      throwValue (.error "SyntaxError" "Function statements require a function name")
    | _ =>
      let value ← evalChild ev init scope
      let _ ← Scope.declare scope kind name value
      evalDeclarations ev scope kind rest

/-- The inner loop `c.consequent.forEach(...)` of the `SwitchStatement` case. -/
def switchConsequent (ev : Node → Nat → M Value) (scope : Nat) : List Node → Value → M Value
  | [], ret => pure ret
  | e :: rest, _ => do
    let ret ←
      match e with
      | .BlockStatement _ => do
        let blockScope ← Scope.new (some (.string "block")) (some scope)
        ev e blockScope
      | _ => ev e scope
    switchConsequent ev scope rest ret

/-- The outer loop `node.cases.forEach(...)` of the `SwitchStatement` case: a
case with a test that is not strictly equal to the discriminant (evaluated
again for every such case) is skipped; every other case runs its
consequent. -/
def switchCases (ev : Node → Nat → M Value) (discriminant : Node) (scope : Nat) :
    List (Option Node × List Node) → Value → M Value
  | [], ret => pure ret
  | (test, consequent) :: rest, ret => do
    let skip ←
      match test with
      | none => pure false
      | some t => do
        let tv ← ev t scope
        let dv ← ev discriminant scope
        let eq ← liftOpt (strictEq tv dv)
        pure (!eq)
    if skip then switchCases ev discriminant scope rest ret
    else do
      let ret ← switchConsequent ev scope consequent ret
      switchCases ev discriminant scope rest ret

/-- What a loop does with the result `ret` of one run of its body: `none` to
go on with the next iteration, `some v` to return `v` from `evaluate`. -/
def loopSignal (ret : Value) (label : Value) : Option Value :=
  match ret with
  | .interruption type _ signalLabel =>
    if type = "continue" then
      if labelMatches signalLabel label then none else some ret
    else if type = "break" then
      if labelMatches signalLabel label then some .undefined else some ret
    else if type = "return" then some ret
    else none
  | _ => none

/-- The `while` loop of the `WhileStatement` case, at most `fuel` tests. -/
def whileLoop (ev : Node → Nat → M Value) (test body : Node) (label : Value)
    (whileScope : Nat) : Nat → M Value
  | 0 => timeout
  | fuel + 1 => do
    let t ← ev test whileScope
    if t.truthy then do
      let whileInnerScope ← Scope.new (some (.string "block")) (some whileScope)
      let ret ← ev body whileInnerScope
      match loopSignal ret label with
      | some v => pure v
      | none => whileLoop ev test body label whileScope fuel
    else pure .undefined

/-- The `for` loop of the `ForStatement` case after its initialiser, at most
`fuel` tests. -/
def forLoop (ev : Node → Nat → M Value) (test update : Option Node) (body : Node)
    (label : Value) (forScope : Nat) : Nat → M Value
  | 0 => timeout
  | fuel + 1 => do
    let t ← evalChild ev test forScope
    if t.truthy then do
      let forInnerScope ← Scope.new (some (.string "block")) (some forScope)
      let ret ← ev body forInnerScope
      match loopSignal ret label with
      | some v => pure v
      | none => do
        let _ ← evalChild ev update forScope
        forLoop ev test update body label forScope fuel
    else pure .undefined

/-- The loop `props.forEach(...)` of the `ObjectExpression` case. -/
def evalProperties (ev : Node → Nat → M Value) (scope : Nat) (obj : Value) :
    List (Node × Node) → M Unit
  | [] => pure ()
  | (key, value) :: rest => do
    let v ← ev value scope
    setProp obj (.str key.nameKey) v
    evalProperties ev scope obj rest

/-- The call `node.elements.map((e) => e.value)` of the `ArrayExpression`
case: the `value` field of a literal, `undefined` for a node without that
field, a `TypeError` on a hole. -/
def elementValues : List (Option Node) → M (List Value)
  | [] => pure []
  | none :: _ => throwValue (typeError "Cannot read properties of null (reading 'value')")
  | some e :: rest => do
    let vs ← elementValues rest
    match e with
    | .Literal value => pure (value.toValue :: vs)
    | _ => pure (Value.undefined :: vs)

/-- The loop `node.params.forEach((param, i) => scope.declare("let", param.name, args[i]))`. -/
def declareParams (scope : Nat) : List String → List Value → M Unit
  | [], _ => pure ()
  | param :: rest, args => do
    let _ ← Scope.declare scope "let" param (args.headD .undefined)
    declareParams scope rest args.tail

/-- A call of a host value with the given arguments. The functions that the
evaluator creates all have the same body: a new `Scope("function", scope)` on
the captured scope, the parameters declared, the body evaluated in it. A host
counter `() => n++` returns its `n` and adds one to it. -/
def callFunction (ev : Node → Nat → M Value) (callee : Value) (args : List Value) : M Value :=
  fun h =>
  match callee with
  | .ref a =>
    match h.cells[a]? with
    | some (.function params body scope) =>
      (do
        let funScope ← Scope.new (some (.string "function")) (some scope)
        declareParams funScope params args
        ev body funScope) h
    | some (.hostCounter n) =>
      match safeNum n, safeNum (n + 1) with
      | some v, some _ => Res.ok v { h with cells := h.cells.set a (.hostCounter (n + 1)) }
      | _, _ => Res.unmodelled
    | some _ => Res.thrown (typeError "callee is not a function") h
    | none => Res.unmodelled
  | .interruption _ _ _ => Res.unmodelled
  | _ => Res.thrown (typeError "callee is not a function") h

/-- Whether a value is a primitive of the host, not an object. -/
def Value.isPrimitive : Value → Bool
  | .ref _ => false
  | .error _ _ => false
  | .interruption _ _ _ => false
  | _ => true

/-- The own property `name` of the plain object at `addr`, as the host reads
it when it looks for a conversion method. -/
def ownMethod (addr : Nat) (name : String) : M (Option Value) := fun h =>
  match h.cells[addr]? with
  | some (.object props) => Res.ok (props.lookup name) h
  | _ => Res.unmodelled

/-- One step of `OrdinaryToPrimitive`: a callable method is called, and its
result counts when it is a primitive. -/
def tryMethod (ev : Node → Nat → M Value) (method : Value) : M (Option Value) := fun h =>
  match method with
  | .ref a =>
    match h.cells[a]? with
    | some (.object _) => Res.ok none h
    | some (.array _) => Res.ok none h
    | some _ =>
      (do
        let r ← callFunction ev method []
        pure (if r.isPrimitive then some r else none)) h
    | none => Res.unmodelled
  | .error _ _ => Res.ok none h
  | .interruption _ _ _ => Res.ok none h
  | _ => Res.ok none h

/-- The conversion `ToPrimitive` that the host applies to the operand of an
arithmetic or relational operator. A primitive is its own result. A plain
object is asked for `valueOf` and then for `toString`: an own method is called
as the host calls it; without an own `valueOf` the inherited one returns the
object itself, which does not count, and without an own `toString` the
inherited one returns `"[object Object]"`. Arrays, functions and error objects
are not covered. -/
def toPrimitive (ev : Node → Nat → M Value) (v : Value) : M Value :=
  match v with
  | .ref a => do
    let fromValueOf ←
      match ← ownMethod a "valueOf" with
      | some m => tryMethod ev m
      | none => pure none
    match fromValueOf with
    | some p => pure p
    | none =>
      match ← ownMethod a "toString" with
      | none => pure (.str "[object Object]")
      | some m => do
        match ← tryMethod ev m with
        | some p => pure p
        | none => throwValue (typeError "Cannot convert object to primitive value")
  | .error _ _ => unmodelled
  | .interruption _ _ _ => unmodelled
  | p => pure p

/-- The binary operators whose operands the host converts with `ToPrimitive`
first. -/
def convertingOperators : List String :=
  ["<", "<=", ">", ">=", "<<", ">>", ">>>", "+", "-", "*", "/", "%", "|", "^", "&"]

/-- The host expression `left operator right` on two values: for an arithmetic
or relational operator the left and then the right operand are converted to
primitives, which can call code. -/
def hostBinary (ev : Node → Nat → M Value) (operator : String) (left right : Value) :
    M Value :=
  if convertingOperators.contains operator then do
    let l ← toPrimitive ev left
    let r ← toPrimitive ev right
    liftOpt (binaryOp operator l r)
  else liftOpt (binaryOp operator left right)

/-- The host expressions `-v`, `+v`, `!v` and `~v`: all but `!` convert the
operand to a primitive first. -/
def hostUnary (ev : Node → Nat → M Value) (operator : String) (v : Value) : M Value :=
  if operator = "!" then liftOpt (unaryOp operator v)
  else do
    let p ← toPrimitive ev v
    liftOpt (unaryOp operator p)

/-- The `MemberExpression` case: the object and the property name, then
either the pair of them or the property value, as `config?.setObjPropVal`
says. -/
def evalMember (config : Option Config) (ev : Node → Nat → M Value) (object property : Node)
    (computed : Bool) (scope : Nat) : M Value := do
  let c ← readConfig config
  let obj ←
    match object with
    | .Identifier name => if name = "" then ev object scope else scopeGet scope name
    | _ => ev object scope
  let pname ← if computed then ev property scope else pure (.str property.nameKey)
  if c.setObjPropVal.truthy then alloc (.array [obj, pname]) else getProp obj pname

/-- The body of the `UpdateExpression` case. A `UnaryExpression` whose operator
is none of `- + ! ~ typeof` falls through into it. -/
def evalUpdate (ev : Node → Nat → M Value) (operator : String) (prefixed : Bool)
    (argument : Node) (scope : Nat) : M Value := do
  let preValue ← ev argument scope
  match argument with
  | .MemberExpression _ _ _ =>
    let pair ← ev argument scope
    let (obj, objPropName) ← destructurePair pair
    let old ← getProp obj objPropName
    let oldPrimitive ← toPrimitive ev old
    let oldNum ← liftOpt (toNumber oldPrimitive)
    let newNum ← liftOpt (binaryOp (if operator = "++" then "+" else "-") oldNum (.num 1))
    setProp obj objPropName newNum
    pure (if prefixed then newNum else oldNum)
  | _ =>
    let newValue ← hostBinary ev (if operator = "++" then "+" else "-") preValue (.num 1)
    Scope.set scope argument.nameKey newValue
    if prefixed then hostBinary ev (if operator = "++" then "+" else "-") preValue (.num 1)
    else pure preValue

/-- The body of the `BinaryExpression` case. A `LogicalExpression` whose
operator is neither `&&` nor `||` falls through into it, and an operator that
its own `switch` does not list falls through into the unary and update cases,
which read the absent `node.argument`. -/
def evalBinary (ev : Node → Nat → M Value) (operator : String) (left right : Node)
    (scope : Nat) : M Value := do
  let l ← ev left scope
  let r ← ev right scope
  if binaryOperators.contains operator then hostBinary ev operator l r
  else throwValue (typeError "Cannot read properties of undefined (reading 'type')")

/-- The `TryStatement` case. The result of the try block is dropped; the
catch clause returns the result of the handler body; the finally clause
evaluates `node.finalizer` (also when it is `null`) and drops the result; and
when neither clause has returned or thrown, control falls through into the
`ThrowStatement` case, which evaluates the absent `node.argument`. -/
def evalTry (ev : Node → Nat → M Value) (block : Node) (handler : Option (String × Node))
    (finalizer : Option Node) (scope : Nat) : M Value := fun h =>
  let tryClause : M Value := do
    let tryScope ← Scope.new (some (.string "block")) (some scope)
    ev block tryScope
  let catchClause (err : Value) : M Value := do
    let catchScope ← Scope.new (some (.string "block")) (some scope)
    match handler with
    | none => throwValue (typeError "Cannot read properties of null (reading 'param')")
    | some (param, body) =>
      let _ ← Scope.declare catchScope "let" param err
      ev body catchScope
  let finallyClause : M Value := do
    let finallyScope ← Scope.new (some (.string "block")) (some scope)
    evalChild ev finalizer finallyScope
  match tryClause h with
  | .ok _ h1 =>
    match finallyClause h1 with
    | .ok _ h2 =>
      Res.thrown (typeError "Cannot read properties of undefined (reading 'type')") h2
    | other => other
  | .thrown err h1 =>
    match catchClause err h1 with
    | .ok v h2 =>
      match finallyClause h2 with
      | .ok _ h3 => Res.ok v h3
      | other => other
    | .thrown e h2 =>
      match finallyClause h2 with
      | .ok _ h3 => Res.thrown e h3
      | other => other
    | other => other
  | other => other

/-- The function `evaluate(node, scope)`: one arm per `case` of its `switch`,
in the order of the source. `config` is the host's binding of the free
identifier of that name; `fuel` bounds the depth of nested calls and the
number of iterations of each loop. -/
def evaluate (config : Option Config) : Nat → Node → Nat → M Value
  | 0, _, _ => timeout
  | fuel + 1, node, scope =>
    let ev := evaluate config fuel
    match node with
    | .Literal value => pure value.toValue
    | .Identifier name => scopeGet scope name
    | .RegExpLiteral => pure .undefined
    | .Program body => do
      let arr ← evalAll ev scope body
      pure (arr.getLastD .undefined)
    | .ExpressionStatement expression => ev expression scope
    | .BlockStatement body => evalBlock ev scope body .undefined
    | .EmptyStatement =>
      throwValue (.error "Error" "Uncaught SyntaxError: Unexpected token ';'")
    | .DebuggerStatement =>
      throwValue (.error "Error" "Uncaught SyntaxError: Unexpected token 'debugger'")
    | .AssignmentExpression operator left right => do
      let rightValue ← ev right scope
      match left with
      | .Identifier name =>
        let leftValue ← ev left scope
        if operator = "=" then Scope.set scope name rightValue
        else match assignmentOperators.lookup operator with
          | some op => do
            let v ← hostBinary ev op leftValue rightValue
            Scope.set scope name v
          | none => pure ()
        scopeGet scope name
      | .MemberExpression _ _ _ =>
        let pair ← ev left scope
        let (leftObj, leftPropName) ← destructurePair pair
        let leftValue ← getProp leftObj leftPropName
        if operator = "=" then setProp leftObj leftPropName rightValue
        else match assignmentOperators.lookup operator with
          | some op => do
            let v ← hostBinary ev op leftValue rightValue
            setProp leftObj leftPropName v
          | none => pure ()
        getProp leftObj leftPropName
      | _ =>
        -- falls through into the `FunctionDeclaration` case, which reads `node.id.name`
        throwValue (typeError "Cannot read properties of undefined (reading 'name')")
    | .FunctionDeclaration id params body => do
      let f ← alloc (.function params body scope)
      Scope.declare scope "var" id f
    | .VariableDeclaration kind declarations => evalDeclarations ev scope kind declarations
    | .IfStatement test consequent alternate => do
      let t ← ev test scope
      if t.truthy then ev consequent scope else evalChild ev alternate scope
    | .SwitchStatement discriminant cases => switchCases ev discriminant scope cases .undefined
    | .ContinueStatement label =>
      let continuation := BlockInterruption.new "continue" .undefined
      match label with
      | some name => pure (BlockInterruption.setLabel continuation name)
      | none => pure continuation
    | .BreakStatement label =>
      let breaker := BlockInterruption.new "break" .undefined
      match label with
      | some name => pure (BlockInterruption.setLabel breaker name)
      | none => pure breaker
    | .WhileStatement test body => do
      let c ← readConfig config
      let whileScope ← Scope.new (some (.string "block")) (some scope)
      whileLoop ev test body c.label whileScope fuel
    | .ForStatement init test update body => do
      let c ← readConfig config
      let forScope ← Scope.new (some (.string "block")) (some scope)
      let _ ← evalChild ev init forScope
      forLoop ev test update body c.label forScope fuel
    | .LabeledStatement _ body => ev body scope
    | .LogicalExpression operator left right =>
      if operator = "&&" then do
        let l ← ev left scope
        if l.truthy then ev right scope else pure l
      else if operator = "||" then do
        let l ← ev left scope
        if l.truthy then pure l else ev right scope
      else evalBinary ev operator left right scope
    | .BinaryExpression operator left right => evalBinary ev operator left right scope
    | .UnaryExpression operator argument =>
      if operator = "typeof" then do
        let v ← ev argument scope
        typeOf v
      else if unaryOperators.contains operator then do
        let v ← ev argument scope
        hostUnary ev operator v
      else
        -- falls through into the `UpdateExpression` case, with `node.prefix` true
        evalUpdate ev operator true argument scope
    | .UpdateExpression operator prefixed argument => evalUpdate ev operator prefixed argument scope
    | .ConditionalExpression test consequent alternate => do
      let t ← ev test scope
      if t.truthy then ev consequent scope else ev alternate scope
    | .ObjectExpression properties => do
      let obj ← alloc (.object [])
      evalProperties ev scope obj properties
      pure obj
    | .MemberExpression object property computed =>
      evalMember config ev object property computed scope
    | .ArrayExpression elements => do
      let vs ← elementValues elements
      alloc (.array vs)
    | .CallExpression callee arguments => do
      let f ← ev callee scope
      let args ← evalAll ev scope arguments
      let ret ← callFunction ev f args
      match ret with
      | .interruption _ value _ => pure value
      | _ => pure ret
    | .FunctionExpression _ params body => alloc (.function params body scope)
    | .ArrowFunctionExpression params body => alloc (.function params body scope)
    | .TryStatement block handler finalizer => evalTry ev block handler finalizer scope
    | .ThrowStatement argument => do
      let e ← ev argument scope
      throwValue e
    | .SequenceExpression expressions => do
      let arr ← evalAll ev scope expressions
      pure (arr.getLastD .undefined)
    | .ReturnStatement argument => do
      let v ← evalChild ev argument scope
      pure (BlockInterruption.new "return" v)
    | .Unsupported type start stop =>
      throwValue (.error "Error"
        ("Unsupported Syntax " ++ type ++ " at Location " ++ toString start ++ ":" ++ toString stop))

/-- The function `customEval(code, parent)` after parsing: `program` is the
tree that the parser returns for `code`. The initial scope holds
`module = { exports: {} }`; the result is `scope.get("module").exports`. -/
def customEval (config : Option Config) (fuel : Nat) (program : Node) (parent : Option Nat) :
    M Value := do
  let initial ← alloc (.object [])
  let module ← alloc (.object [])
  let exports ← alloc (.object [])
  setProp module (.str "exports") exports
  setProp initial (.str "module") module
  match initial with
  | .ref addr => do
    let scope ← Scope.new (some (.object addr)) parent
    let _ ← evaluate config fuel program scope
    let m ← scopeGet scope "module"
    getProp m (.str "exports")
  | _ => unmodelled

/-- The empty store. -/
def Heap.empty : Heap := { scopes := [], cells := [] }

/-! ## Stores and programs used below -/

/-- Parent links point to scopes created earlier: the constructor receives its
parent as an argument, so the parent exists before the child. -/
def Heap.parentsBelow (h : Heap) : Bool :=
  (List.range h.scopes.length).all fun i =>
    match h.scopes[i]? with
    | some s =>
      match s.parent with
      | some p => decide (p < i)
      | none => true
    | none => true

/-- No scope other than `child` holds the object at `addr` as its `variables`:
the object was not passed as `initial` to a second `new Scope`. -/
def Heap.mappingOwnedBy (h : Heap) (addr child : Nat) : Bool :=
  (List.range h.scopes.length).all fun i =>
    match h.scopes[i]? with
    | some s => i == child || s.vars != .object addr
    | none => true

/-- The own properties of the object that scope `i` holds as `variables`;
`none` when the scope holds a string. -/
def Heap.bindingsAt (h : Heap) (i : Nat) : Option (List (String × Value)) :=
  match h.scopes[i]? with
  | some s =>
    match s.vars with
    | .object addr =>
      match h.cells[addr]? with
      | some (.object props) => some props
      | _ => none
    | .string _ => none
  | none => none

/-- The store after `new Scope({ x: v })`: the object is cell 0. -/
def singleScopeHeap (v : Value) : Heap :=
  { scopes := [{ vars := .object 0, parent := none, childScopes := [], type := "block" }],
    cells := [.object [("x", v)]] }

/-- The store after `outer = new Scope({ x: 5 })` and
`inner = new Scope({ x: v }, outer)`: scope 0 is `outer`, scope 1 is `inner`,
and their objects are the cells 0 and 1. -/
def shadowHeap (v : Value) : Heap :=
  { scopes := [{ vars := .object 0, parent := none, childScopes := [1], type := "block" },
               { vars := .object 1, parent := some 0, childScopes := [], type := "block" }],
    cells := [.object [("x", .num 5)], .object [("x", v)]] }

/-- The store after `parent = new Scope({ x: 1 })` and
`child = new Scope({}, parent)`: scope 0 is `parent`, scope 1 is `child`, and
their objects are the cells 0 and 1. -/
def parentChildHeap : Heap :=
  { scopes := [{ vars := .object 0, parent := none, childScopes := [1], type := "block" },
               { vars := .object 1, parent := some 0, childScopes := [], type := "block" }],
    cells := [.object [("x", .num 1)], .object []] }

/-- The store after `o = { x: 1 }`, `parent = new Scope(o)` and
`child = new Scope(o, parent)`: both scopes hold the one object, cell 0. -/
def sharedHeap : Heap :=
  { scopes := [{ vars := .object 0, parent := none, childScopes := [1], type := "block" },
               { vars := .object 0, parent := some 0, childScopes := [], type := "block" }],
    cells := [.object [("x", .num 1)]] }

/-- The store after `new Scope()`: one scope, index 0, whose fresh object,
cell 0, has no properties. -/
def rootHeap : Heap :=
  { scopes := [{ vars := .object 0, parent := none, childScopes := [], type := "block" }],
    cells := [.object []] }

/-- The program `const a = 1; a = 2; a`. -/
def constReassignProgram : Node :=
  .Program
    [.VariableDeclaration "const" [("a", some (.Literal (.num 1)))],
     .ExpressionStatement (.AssignmentExpression "=" (.Identifier "a") (.Literal (.num 2))),
     .ExpressionStatement (.Identifier "a")]

/-- The program
`function outer() { var counter = 0; return function () { counter++; return counter; }; }`
`var f = outer(); f(); f(); f();`. -/
def closureCounterProgram : Node :=
  .Program
    [.FunctionDeclaration "outer" []
      (.BlockStatement
        [.VariableDeclaration "var" [("counter", some (.Literal (.num 0)))],
         .ReturnStatement (some (.FunctionExpression none []
           (.BlockStatement
             [.ExpressionStatement (.UpdateExpression "++" false (.Identifier "counter")),
              .ReturnStatement (some (.Identifier "counter"))])))]),
     .VariableDeclaration "var" [("f", some (.CallExpression (.Identifier "outer") []))],
     .ExpressionStatement (.CallExpression (.Identifier "f") []),
     .ExpressionStatement (.CallExpression (.Identifier "f") []),
     .ExpressionStatement (.CallExpression (.Identifier "f") [])]

/-- The same counter written with assignments only, the one way of binding a
name that has an effect:
`outer = function () { counter = 0; return function () { counter++; return counter; }; };`
`f = outer(); f(); f(); f();`. -/
def closureCounterAssignProgram : Node :=
  .Program
    [.ExpressionStatement (.AssignmentExpression "=" (.Identifier "outer")
      (.FunctionExpression none []
        (.BlockStatement
          [.ExpressionStatement (.AssignmentExpression "=" (.Identifier "counter") (.Literal (.num 0))),
           .ReturnStatement (some (.FunctionExpression none []
             (.BlockStatement
               [.ExpressionStatement (.UpdateExpression "++" false (.Identifier "counter")),
                .ReturnStatement (some (.Identifier "counter"))])))]))),
     .ExpressionStatement (.AssignmentExpression "=" (.Identifier "f")
       (.CallExpression (.Identifier "outer") [])),
     .ExpressionStatement (.CallExpression (.Identifier "f") []),
     .ExpressionStatement (.CallExpression (.Identifier "f") []),
     .ExpressionStatement (.CallExpression (.Identifier "f") [])]

/-- The program
`count = 0; for (let i = 0; i < 5; i++) { if (i == 2) continue; count++; }`. -/
def forContinueProgram : Node :=
  .Program
    [.ExpressionStatement (.AssignmentExpression "=" (.Identifier "count") (.Literal (.num 0))),
     .ForStatement
       (some (.VariableDeclaration "let" [("i", some (.Literal (.num 0)))]))
       (some (.BinaryExpression "<" (.Identifier "i") (.Literal (.num 5))))
       (some (.UpdateExpression "++" false (.Identifier "i")))
       (.BlockStatement
         [.IfStatement (.BinaryExpression "==" (.Identifier "i") (.Literal (.num 2)))
            (.ContinueStatement none) none,
          .ExpressionStatement (.UpdateExpression "++" false (.Identifier "count"))])]

/-- The statement `outer: while (true) { while (true) { break outer; } }`. -/
def labeledBreakStatement : Node :=
  .LabeledStatement "outer"
    (.WhileStatement (.Literal (.bool true))
      (.BlockStatement
        [.WhileStatement (.Literal (.bool true))
          (.BlockStatement [.BreakStatement (some "outer")])]))

/-- The statement `try { throw 1 } catch (e) { return e + 1 }`, as the parser
delivers it: no finally block, so `finalizer` is `null`. -/
def tryCatchStatement : Node :=
  .TryStatement
    (.BlockStatement [.ThrowStatement (.Literal (.num 1))])
    (some ("e", .BlockStatement
      [.ReturnStatement (some (.BinaryExpression "+" (.Identifier "e") (.Literal (.num 1))))]))
    none

/-- The call `(function () { try { throw 1 } catch (e) { return e + 1 } })()`. -/
def tryCatchCall : Node :=
  .CallExpression (.FunctionExpression none [] (.BlockStatement [tryCatchStatement])) []

/-- The statement `name = n`. -/
def assignStatement (name : String) (n : Int) : Node :=
  .ExpressionStatement (.AssignmentExpression "=" (.Identifier name) (.Literal (.num n)))

/-- The statement `switch (1) { case 1: a = 1; case 2: b = 2; }`. -/
def fallthroughSwitch : Node :=
  .SwitchStatement (.Literal (.num 1))
    [(some (.Literal (.num 1)), [assignStatement "a" 1]),
     (some (.Literal (.num 2)), [assignStatement "b" 2])]

/-- The statement `switch (1) { default: d = 1; case 1: b = 2; }`. -/
def defaultFirstSwitch : Node :=
  .SwitchStatement (.Literal (.num 1))
    [(none, [assignStatement "d" 1]),
     (some (.Literal (.num 1)), [assignStatement "b" 2])]

/-- The store `rootHeap` after the given bindings were written to its scope. -/
def rootHeapWith (props : List (String × Value)) : Heap :=
  { scopes := [{ vars := .object 0, parent := none, childScopes := [], type := "block" }],
    cells := [.object props] }

/-- The elements of the array stored at an address. -/
def Heap.arrayAt (h : Heap) (addr : Nat) : Option (List Value) :=
  match h.cells[addr]? with
  | some (.array elems) => some elems
  | _ => none

/-- The own properties of the plain object stored at an address. -/
def Heap.objectAt (h : Heap) (addr : Nat) : Option (List (String × Value)) :=
  match h.cells[addr]? with
  | some (.object props) => some props
  | _ => none

/-- The store `rootHeap` after `n` calls `new Scope("block", root)`: the root
scope followed by `n` scopes that hold the string `"block"`. -/
def rootWithBlocks (n : Nat) : Heap :=
  { scopes :=
      { vars := .object 0, parent := none, childScopes := List.range' 1 n, type := "block" } ::
        List.replicate n
          { vars := .string "block", parent := some 0, childScopes := [], type := "block" },
    cells := [.object []] }

/-- The statement `try { return 1 } catch (e) { } finally { }`. -/
def tryReturnStatement : Node :=
  .TryStatement
    (.BlockStatement [.ReturnStatement (some (.Literal (.num 1)))])
    (some ("e", .BlockStatement []))
    (some (.BlockStatement []))

/-- The statement `try { 1 } finally { }`. -/
def tryFinallyStatement : Node :=
  .TryStatement
    (.BlockStatement [.ExpressionStatement (.Literal (.num 1))])
    none
    (some (.BlockStatement []))

/-- The statement `try { ; } catch (e) { 5 } finally { }`: the try block holds
an empty statement, which `evaluate` rejects with an error of its own. -/
def tryEmptyStatement : Node :=
  .TryStatement
    (.BlockStatement [.EmptyStatement])
    (some ("e", .BlockStatement [.ExpressionStatement (.Literal (.num 5))]))
    (some (.BlockStatement []))

/-- The statement `try { 1; ; } catch (e) { 5 } finally { }`: the empty
statement comes after a statement that completes. -/
def tryLaterEmptyStatement : Node :=
  .TryStatement
    (.BlockStatement [.ExpressionStatement (.Literal (.num 1)), .EmptyStatement])
    (some ("e", .BlockStatement [.ExpressionStatement (.Literal (.num 5))]))
    (some (.BlockStatement []))

/-- The statement `try { throw 1 } catch (e) { 5 } finally { break }`. -/
def tryFinallyBreakStatement : Node :=
  .TryStatement
    (.BlockStatement [.ThrowStatement (.Literal (.num 1))])
    (some ("e", .BlockStatement [.ExpressionStatement (.Literal (.num 5))]))
    (some (.BlockStatement [.BreakStatement none]))

/-- The expression `[1 + 2, x, 4]`. -/
def arrayLiteral : Node :=
  .ArrayExpression
    [some (.BinaryExpression "+" (.Literal (.num 1)) (.Literal (.num 2))),
     some (.Identifier "x"),
     some (.Literal (.num 4))]

/-- The store in which the one scope binds `o` to the object `{ p: 1 }`: cell
0 is the object of the scope, cell 1 is `{ p: 1 }`. -/
def objectHeap : Heap :=
  { scopes := [{ vars := .object 0, parent := none, childScopes := [], type := "block" }],
    cells := [.object [("o", .ref 1)], .object [("p", .num 1)]] }

/-- The member expression `o.p`. -/
def memberOP : Node := .MemberExpression (.Identifier "o") (.Identifier "p") false

/-- The expression `o.p += (o.p = 10)`. -/
def compoundMemberAssignment : Node :=
  .AssignmentExpression "+=" memberOP (.AssignmentExpression "=" memberOP (.Literal (.num 10)))

/-- A host whose global `config` has a truthy `setObjPropVal`, the one setting
under which a member target resolves to the pair of object and name. -/
def pairConfig : Config := { label := .undefined, setObjPropVal := .bool true }

/-- The block `{ 1; return 2; 3; }`. -/
def blockWithReturn : Node :=
  .BlockStatement
    [.ExpressionStatement (.Literal (.num 1)),
     .ReturnStatement (some (.Literal (.num 2))),
     .ExpressionStatement (.Literal (.num 3))]

/-! ## Pure expressions -/

/-- The unary operators of a pure expression. -/
inductive PureUnary where
  | minus
  | plus
  | not
  | bitNot
  | typeof
deriving DecidableEq, Repr

/-- The operator symbol. -/
def PureUnary.operator : PureUnary → String
  | .minus => "-"
  | .plus => "+"
  | .not => "!"
  | .bitNot => "~"
  | .typeof => "typeof"

/-- Pure expressions: literals, identifiers, and binary, unary (`-`, `+`, `!`,
`~`, `typeof`), logical and conditional expressions over pure expressions. -/
inductive PureExpr where
  | literal (value : Lit)
  | identifier (name : String)
  | binary (operator : String) (left right : PureExpr)
  | unary (operator : PureUnary) (argument : PureExpr)
  | logical (operator : String) (left right : PureExpr)
  | conditional (test consequent alternate : PureExpr)

/-- The syntax node of a pure expression. -/
def PureExpr.toNode : PureExpr → Node
  | .literal value => .Literal value
  | .identifier name => .Identifier name
  | .binary operator left right => .BinaryExpression operator left.toNode right.toNode
  | .unary operator argument => .UnaryExpression operator.operator argument.toNode
  | .logical operator left right => .LogicalExpression operator left.toNode right.toNode
  | .conditional test consequent alternate =>
    .ConditionalExpression test.toNode consequent.toNode alternate.toNode

/-- The identifiers that occur in a pure expression. -/
def PureExpr.identifiers : PureExpr → List String
  | .literal _ => []
  | .identifier name => [name]
  | .binary _ left right => left.identifiers ++ right.identifiers
  | .unary _ argument => argument.identifiers
  | .logical _ left right => left.identifiers ++ right.identifiers
  | .conditional test consequent alternate =>
    test.identifiers ++ consequent.identifiers ++ alternate.identifiers

/-- The nesting depth of a pure expression. -/
def PureExpr.depth : PureExpr → Nat
  | .literal _ => 1
  | .identifier _ => 1
  | .binary _ left right => max left.depth right.depth + 1
  | .unary _ argument => argument.depth + 1
  | .logical _ left right => max left.depth right.depth + 1
  | .conditional test consequent alternate =>
    max test.depth (max consequent.depth alternate.depth) + 1

/-- Whether a computation ran out of fuel. -/
def Res.isTimeout {α : Type} : Res α → Bool
  | .timeout => true
  | _ => false

/-- The pure expression `x + 1`. -/
def incrementExpr : PureExpr := .binary "+" (.identifier "x") (.literal (.num 1))

/-- How a computation ended, without the store it left. -/
inductive Outcome (α : Type) where
  | value (a : α)
  | thrown (e : Value)
  | timeout
  | unmodelled
deriving DecidableEq, Repr

/-- The outcome of a result. -/
def Res.outcome {α : Type} : Res α → Outcome α
  | .ok a _ => .value a
  | .thrown e _ => .thrown e
  | .timeout => .timeout
  | .unmodelled => .unmodelled

/-- Whether `name` resolves through `get`, from the scope `this`, to a
primitive value. -/
def Heap.resolvesPrimitive (h : Heap) (this : Nat) (name : String) : Bool :=
  match Scope.get h this name with
  | some v => v.isPrimitive
  | none => false

/-- Two results, one computed in the store `h1` and one in the store `h2`,
that ended the same way and each left its store as it was; `P` holds of a
returned value. -/
def Res.sameIn {α : Type} (r1 : Res α) (h1 : Heap) (r2 : Res α) (h2 : Heap) (P : α → Prop) :
    Prop :=
  match r1, r2 with
  | .ok a k1, .ok b k2 => a = b ∧ k1 = h1 ∧ k2 = h2 ∧ P a
  | .thrown a k1, .thrown b k2 => a = b ∧ k1 = h1 ∧ k2 = h2
  | .timeout, .timeout => True
  | .unmodelled, .unmodelled => True
  | _, _ => False

/-- Two scopes with a mapping each, both binding `x` to the same object, whose
own `valueOf` is a counter of the host that starts at `1`:
`n = 1; o = { valueOf: () => n++ }; a = new Scope({ x: o }); b = new Scope({ x: o })`. -/
def counterHeap : Heap :=
  { scopes :=
      [{ vars := .object 0, parent := none, childScopes := [], type := "block" },
       { vars := .object 3, parent := none, childScopes := [], type := "block" }],
    cells :=
      [.object [("x", .ref 1)], .object [("valueOf", .ref 2)], .hostCounter 1,
       .object [("x", .ref 1)]] }

/-! ## Lemmas on the scope chain -/

theorem upsert_lookup (props : List (String × Value)) (name : String) (value : Value) :
    (upsert props name value).lookup name = some value := by
  induction props with
  | nil => simp [upsert, List.lookup]
  | cons kv rest ih =>
    obtain ⟨k, v⟩ := kv
    by_cases hk : k = name
    · subst hk
      simp [upsert, List.lookup]
    · have hne : (name == k) = false := by
        simpa using fun h' => hk h'.symm
      simp [upsert, hk, List.lookup, hne, ih]

theorem parentsBelow_lt {h : Heap} (hwf : h.parentsBelow = true) {i p : Nat} {s : Scope}
    (hi : h.scopes[i]? = some s) (hp : s.parent = some p) : p < i := by
  have hlen : i < h.scopes.length := by
    rcases Nat.lt_or_ge i h.scopes.length with hlt | hge
    · exact hlt
    · rw [List.getElem?_eq_none hge] at hi
      cases hi
  have hall := List.all_eq_true.mp hwf i (List.mem_range.mpr hlen)
  simp only [hi, hp] at hall
  exact of_decide_eq_true hall

/-- What `Heap.mappingOwnedBy` says, scope by scope. -/
theorem mappingOwnedBy_ne {h : Heap} {addr child : Nat} (hown : h.mappingOwnedBy addr child = true)
    {i : Nat} {s : Scope} (hi : h.scopes[i]? = some s) (hne : i ≠ child) :
    s.vars ≠ .object addr := by
  have hlen : i < h.scopes.length := by
    rcases Nat.lt_or_ge i h.scopes.length with hlt | hge
    · exact hlt
    · rw [List.getElem?_eq_none hge] at hi
      cases hi
  have hall := List.all_eq_true.mp hown i (List.mem_range.mpr hlen)
  simp only [hi] at hall
  intro heq
  simp [heq, hne] at hall

/-- A write to the cell at `addr` does not change a read of `variables` that
is not the object at `addr`. -/
theorem Vars.get_set_other (cells : List Cell) (addr : Nat) (c : Cell) (vars : Vars)
    (key : String) (hne : vars ≠ .object addr) :
    vars.get (cells.set addr c) key = vars.get cells key := by
  cases vars with
  | string s => rfl
  | object b =>
    have hb : addr ≠ b := fun heq => hne (by rw [heq])
    simp only [Vars.get, List.getElem?_set_ne hb]

/-- A write to the object of a scope does not change what `get` finds from a
scope created before it, when no other scope holds that object: the chain from
the earlier scope only visits earlier scopes. -/
theorem getAux_set_cell {scopes : List Scope} {cells : List Cell} {child addr : Nat} (c : Cell)
    (key : String)
    (hwf : ∀ (i : Nat) (s : Scope) (p : Nat), scopes[i]? = some s → s.parent = some p → p < i)
    (hown : ∀ (i : Nat) (s : Scope), scopes[i]? = some s → i ≠ child → s.vars ≠ .object addr) :
    ∀ (fuel a : Nat), a < child →
      Scope.getAux scopes (cells.set addr c) fuel a key = Scope.getAux scopes cells fuel a key := by
  intro fuel
  induction fuel with
  | zero => intro a _; rfl
  | succ n ih =>
    intro a hac
    simp only [Scope.getAux]
    cases hs : scopes[a]? with
    | none => rfl
    | some s =>
      simp only
      rw [Vars.get_set_other cells addr c s.vars key (hown a s hs (by omega))]
      cases hg : s.vars.get cells key with
      | none => rfl
      | some v =>
        simp only
        by_cases hv : v.truthy = true
        · simp [hv]
        · simp only [hv]
          cases hp : s.parent with
          | none => rfl
          | some p =>
            have hlt : p < a := hwf a s p hs hp
            simp only [Bool.false_eq_true, if_false]
            exact ih p (by omega)

/-! ## Lemmas on the evaluator -/

theorem bind_apply {α β : Type} (m : M α) (f : α → M β) (h : Heap) :
    (m >>= f) h =
      match m h with
      | .ok a h1 => f a h1
      | .thrown e h1 => .thrown e h1
      | .timeout => .timeout
      | .unmodelled => .unmodelled := rfl

/-- The scan of the cases of a switch is sequential: scanning `pre ++ post`
is scanning `pre` and then `post`, with nothing carried over but the last
value `ret` and the store. -/
theorem switchCases_append (ev : Node → Nat → M Value) (discriminant : Node) (scope : Nat)
    (pre post : List (Option Node × List Node)) :
    ∀ ret : Value, switchCases ev discriminant scope (pre ++ post) ret =
      (switchCases ev discriminant scope pre ret >>= fun r =>
        switchCases ev discriminant scope post r) := by
  induction pre with
  | nil => intro ret; rfl
  | cons c rest ih =>
    intro ret
    obtain ⟨test, consequent⟩ := c
    cases test with
    | none => simp [switchCases, ih]
    | some t =>
      simp only [List.cons_append, switchCases, bind_assoc, ih, pure_bind]
      congr 1; funext tv; congr 1; funext dv; congr 1; funext eq
      cases eq <;> simp [ih]

theorem evaluate_switch (config : Option Config) (fuel : Nat) (discriminant : Node)
    (cases : List (Option Node × List Node)) (scope : Nat) :
    evaluate config (fuel + 1) (.SwitchStatement discriminant cases) scope =
      switchCases (evaluate config fuel) discriminant scope cases .undefined := rfl

/-! ## Claims about the class `Scope` -/

/-- C1, checked at the failing inputs: a scope that binds `x` to `0`, `false`,
the empty string or `null` answers `get("x")` with `undefined` (not found),
and an inner scope that binds `x` to `0` under an outer scope that binds `x`
to `5` answers with the outer `5`: the lookup tests the bound value for
truthiness, so a falsy binding is treated as absent. -/
theorem Scope.get_treats_falsy_binding_as_absent :
    Scope.get (singleScopeHeap (.num 0)) 0 "x" = some .undefined ∧
    Scope.get (singleScopeHeap (.bool false)) 0 "x" = some .undefined ∧
    Scope.get (singleScopeHeap (.str "")) 0 "x" = some .undefined ∧
    Scope.get (singleScopeHeap .null) 0 "x" = some .undefined ∧
    Scope.get (shadowHeap (.num 0)) 1 "x" = some (.num 5) := by
  decide!

/-- C2 as stated fails: after `child.set("x", 2)` on a child whose parent owns
`x = 1`, `parent.get("x")` is still `1`, the parent's object still holds
`x = 1`, and the child's own object now holds `x = 2`. -/
theorem Scope.set_on_child_leaves_ancestor :
    ((Scope.set 1 "x" (.num 2) parentChildHeap).heap?.bind fun h => Scope.get h 0 "x")
        = some (.num 1) ∧
    ((Scope.set 1 "x" (.num 2) parentChildHeap).heap?.bind fun h => h.bindingsAt 0)
        = some [("x", .num 1)] ∧
    ((Scope.set 1 "x" (.num 2) parentChildHeap).heap?.bind fun h => h.bindingsAt 1)
        = some [("x", .num 2)] := by
  decide!

/-- When the child was built on the very object of its parent
(`new Scope(o, new Scope(o))`), the write through the child is a write to the
parent's mapping too: after `child.set("x", 2)`, `parent.get("x")` is `2`. This
is why the amended statement of C2 asks that no other scope holds the child's
object. -/
theorem Scope.set_on_shared_mapping_reaches_parent :
    sharedHeap.mappingOwnedBy 0 1 = false ∧
    ((Scope.set 1 "x" (.num 2) sharedHeap).heap?.bind fun h => Scope.get h 0 "x")
        = some (.num 2) := by
  decide!

/-- C2 as amended: `set(name, value)` on a scope whose `variables` is a plain
object that no other scope holds writes the binding into that object and
nowhere else, for every name but `__proto__`: the scopes themselves are left
as they were, the object of every other scope keeps its properties, and a later
`get` of any name on a scope created before it (its ancestors among them)
returns what it returned before. -/
theorem Scope.set_writes_own_mapping_only (h : Heap) (child ancestor : Nat) (name : String)
    (value : Value) (sc : Scope) (addr : Nat) (props : List (String × Value))
    (hwf : h.parentsBelow = true) (hlt : ancestor < child)
    (hc : h.scopes[child]? = some sc) (hv : sc.vars = .object addr)
    (hcell : h.objectAt addr = some props)
    (hown : h.mappingOwnedBy addr child = true)
    (hname : name ≠ "__proto__")
    (ht : sc.type = "block") :
    ∃ h', Scope.set child name value h = Res.ok () h' ∧
      h'.scopes = h.scopes ∧
      h'.bindingsAt child = some (upsert props name value) ∧
      (upsert props name value).lookup name = some value ∧
      h'.bindingsAt ancestor = h.bindingsAt ancestor ∧
      ∀ key, Scope.get h' ancestor key = Scope.get h ancestor key := by
  have hcell' : h.cells[addr]? = some (.object props) := by
    unfold Heap.objectAt at hcell
    cases hx : h.cells[addr]? with
    | none => rw [hx] at hcell; cases hcell
    | some c =>
      rw [hx] at hcell
      cases c with
      | object q => simp only [Option.some.injEq] at hcell; rw [hcell]
      | array e => cases hcell
      | function a b c => cases hcell
      | hostCounter n => cases hcell
  have hlen : addr < h.cells.length := by
    rcases Nat.lt_or_ge addr h.cells.length with hlt' | hge
    · exact hlt'
    · rw [List.getElem?_eq_none hge] at hcell'
      cases hcell'
  have hanc : ∀ (s : Scope), h.scopes[ancestor]? = some s → s.vars ≠ .object addr :=
    fun s hs => mappingOwnedBy_ne hown hs (by omega)
  refine ⟨{ h with cells := h.cells.set addr (.object (upsert props name value)) },
    ?_, rfl, ?_, upsert_lookup props name value, ?_, ?_⟩
  · have hconst : ¬ sc.type = "const" := by rw [ht]; decide
    simp [Scope.set, hc, hv, hconst, Vars.set, hcell', hname]
  · simp [Heap.bindingsAt, hc, hv, List.getElem?_set_self hlen]
  · simp only [Heap.bindingsAt]
    cases hs : h.scopes[ancestor]? with
    | none => rfl
    | some s =>
      simp only
      cases hvars : s.vars with
      | string t => rfl
      | object b =>
        have hb : addr ≠ b := fun heq => hanc s hs (by rw [hvars, heq])
        simp only [List.getElem?_set_ne hb]
  · intro key
    simp only [Scope.get]
    exact getAux_set_cell _ key (fun i s p hi hp => parentsBelow_lt hwf hi hp)
      (fun i s hi hne => mappingOwnedBy_ne hown hi hne) _ _ hlt

/-- C2 as amended, at `child.set("x", 2)` with the parent owning `x = 1` and
the child holding an empty object of its own. -/
theorem Scope.set_writes_own_mapping_only_witness :
    parentChildHeap.parentsBelow = true ∧ 0 < 1 ∧
    parentChildHeap.objectAt 1 = some [] ∧
    parentChildHeap.mappingOwnedBy 1 1 = true ∧
    "x" ≠ "__proto__" ∧
    ∃ h', Scope.set 1 "x" (.num 2) parentChildHeap = Res.ok () h' ∧
      h'.scopes = parentChildHeap.scopes ∧
      h'.bindingsAt 1 = some (upsert [] "x" (.num 2)) ∧
      (upsert [] "x" (.num 2)).lookup "x" = some (.num 2) ∧
      h'.bindingsAt 0 = parentChildHeap.bindingsAt 0 ∧
      ∀ key, Scope.get h' 0 key = Scope.get parentChildHeap 0 key :=
  ⟨by decide, by decide, by decide, by decide, by decide,
    Scope.set_writes_own_mapping_only parentChildHeap 1 0 "x" (.num 2)
      { vars := .object 1, parent := some 0, childScopes := [], type := "block" } 1 []
      (by decide) (by decide) rfl rfl (by decide) (by decide) (by decide) rfl⟩

/-- C3, checked at the failing input `const a = 1; a = 2; a` (whatever the
host binds `config` to): no error is raised, the program returns `2`, and the
scope ends up binding `a` to `2`. -/
theorem evaluate_const_reassignment_not_rejected (config : Option Config) :
    (evaluate config 4 constReassignProgram 0 rootHeap).value? = some (.num 2) ∧
    (evaluate config 4 constReassignProgram 0 rootHeap).isThrown = false ∧
    ((evaluate config 4 constReassignProgram 0 rootHeap).heap?.bind fun h => Scope.get h 0 "a")
      = some (.num 2) := by
  refine ⟨?_, ?_, ?_⟩ <;> rfl

/-- C4, checked for every call and at a failing input: `declare` returns
`undefined` and leaves the store as it was, for every scope, kind, name and
value; so after `declare("let", "x", 1)` on a fresh scope `get("x")` is still
`undefined`, and likewise for `const` and `var`. -/
theorem Scope.declare_inserts_no_binding :
    (∀ (h : Heap) (s : Nat) (kind name : String) (value : Value),
      Scope.declare s kind name value h = Res.ok .undefined h) ∧
    ((Scope.declare 0 "let" "x" (.num 1) rootHeap).heap?.bind fun h => Scope.get h 0 "x")
      = some .undefined ∧
    ((Scope.declare 0 "const" "x" (.num 1) rootHeap).heap?.bind fun h => Scope.get h 0 "x")
      = some .undefined ∧
    ((Scope.declare 0 "var" "x" (.num 1) rootHeap).heap?.bind fun h => Scope.get h 0 "x")
      = some .undefined := by
  refine ⟨fun _ _ _ _ _ => rfl, ?_, ?_, ?_⟩ <;> decide!

/-! ## Claims about `evaluate` -/

/-- C5, checked at the failing input: the counter program never yields `1`.
With the function declared by a `FunctionDeclaration`, the call `outer()`
throws a `TypeError`, because `declare` bound nothing and `outer` reads as
`undefined`; with the names bound by assignment, the assignment `counter = 0`
inside the call throws a `TypeError`, because the scope of a call holds the
string `"function"` in place of a mapping. This is so whatever the host binds
`config` to. -/
theorem evaluate_closure_counter_throws (config : Option Config) :
    (evaluate config 8 closureCounterProgram 0 rootHeap).thrown?
      = some (typeError "callee is not a function") ∧
    (evaluate config 8 closureCounterAssignProgram 0 rootHeap).thrown?
      = some (typeError "Cannot create property on string") := by
  refine ⟨?_, ?_⟩ <;> rfl

/-- C6, checked at the failing input (n = 5, k = 2): with no global `config`
the `for` statement throws a `ReferenceError` before the loop starts; with a
global `config` the body never runs, since `let i = 0` binds nothing and the
test `i < 5` compares `undefined`: the statement returns `undefined`, the
program's scope still binds `count` to `0` and nothing else, and `i` is not
bound in the loop scope on exit. -/
theorem evaluate_for_continue_never_iterates :
    (evaluate none 8 forContinueProgram 0 rootHeap).thrown?
      = some (referenceError "config is not defined") ∧
    ∀ c : Config,
      (evaluate (some c) 8 forContinueProgram 0 rootHeap).value? = some .undefined ∧
      ((evaluate (some c) 8 forContinueProgram 0 rootHeap).heap?.bind
        fun h => h.bindingsAt 0) = some [("count", .num 0)] ∧
      ((evaluate (some c) 8 forContinueProgram 0 rootHeap).heap?.bind
        fun h => Scope.get h 1 "i") = some .undefined := by
  refine ⟨rfl, fun c => ⟨?_, ?_, ?_⟩⟩ <;> rfl

/-- C7, checked at the failing input
`outer: while (true) { while (true) { break outer; } }`: with no global
`config` the labeled statement throws a `ReferenceError`; with a global
`config` that has no `label`, both loops stop but the labeled statement
returns the break signal itself, label `outer` included, so the signal escapes
it. The label of the `LabeledStatement` never reaches the loop. -/
theorem evaluate_labeled_break_escapes :
    (evaluate none 8 labeledBreakStatement 0 rootHeap).thrown?
      = some (referenceError "config is not defined") ∧
    ∀ v : Value,
      (evaluate (some { label := .undefined, setObjPropVal := v }) 8
          labeledBreakStatement 0 rootHeap).value?
        = some (.interruption "break" .undefined (some "outer")) := by
  refine ⟨rfl, fun v => ?_⟩
  rfl

/-- C8, checked at the failing input
`(function () { try { throw 1 } catch (e) { return e + 1 } })()`: the call
throws a `TypeError` and returns nothing, and so does the try statement
evaluated on its own: after the catch body has run, the finally clause
evaluates the absent finalizer. This is so whatever the host binds `config`
to. -/
theorem evaluate_try_catch_without_finalizer_throws (config : Option Config) :
    (evaluate config 8 tryCatchCall 0 rootHeap).thrown?
      = some (typeError "Cannot read properties of null (reading 'type')") ∧
    (evaluate config 8 tryCatchCall 0 rootHeap).value? = none ∧
    (evaluate config 8 tryCatchStatement 0 rootHeap).thrown?
      = some (typeError "Cannot read properties of null (reading 'type')") := by
  refine ⟨?_, ?_, ?_⟩ <;> rfl

/-- C9 as stated fails: in `switch (1) { case 1: a = 1; case 2: b = 2; }`
case 1 matches and has no break, yet the statement of case 2 is not executed:
the switch returns `1` and the scope binds `a` only. -/
theorem evaluate_switch_does_not_fall_through :
    (evaluate none 4 fallthroughSwitch 0 rootHeap).value? = some (.num 1) ∧
    ((evaluate none 4 fallthroughSwitch 0 rootHeap).heap?.bind
      fun h => h.bindingsAt 0) = some [("a", .num 1)] := by
  decide!

/-- C9 as amended: every case of a switch is decided by its own test. When
the scan reaches a case with a test (the cases before it, a matching case
among them or not, having returned `ret`), the test and then the discriminant
are evaluated, and the statements of the case are executed if the two values
are strictly equal and skipped if they are not; the scan then goes on with the
cases after it. -/
theorem evaluate_switch_case_decided_by_own_test (config : Option Config) (fuel : Nat)
    (discriminant t : Node) (pre post : List (Option Node × List Node))
    (consequent : List Node) (scope : Nat) (h h1 h2 h3 : Heap) (ret tv dv : Value) (b : Bool)
    (hpre : switchCases (evaluate config fuel) discriminant scope pre .undefined h = Res.ok ret h1)
    (ht : evaluate config fuel t scope h1 = Res.ok tv h2)
    (hd : evaluate config fuel discriminant scope h2 = Res.ok dv h3)
    (heq : strictEq tv dv = some b) :
    evaluate config (fuel + 1)
        (.SwitchStatement discriminant (pre ++ (some t, consequent) :: post)) scope h =
      if b then
        (switchConsequent (evaluate config fuel) scope consequent ret >>= fun r =>
          switchCases (evaluate config fuel) discriminant scope post r) h3
      else switchCases (evaluate config fuel) discriminant scope post ret h3 := by
  rw [evaluate_switch, switchCases_append, bind_apply, hpre]
  simp only [switchCases, bind_assoc, pure_bind]
  rw [bind_apply, ht]
  simp only
  rw [bind_apply, hd]
  simp only [heq, liftOpt, pure_bind]
  cases b <;> simp

/-- C9 as amended, at `switch (1) { case 1: a = 1; case 2: b = 2; }`: case 2
is reached after case 1 returned `1`, its test `2` is not strictly equal to
the discriminant `1`, and the switch ends with `a` bound and `b` not. -/
theorem evaluate_switch_case_decided_by_own_test_witness :
    switchCases (evaluate none 3) (.Literal (.num 1)) 0
        [(some (.Literal (.num 1)), [assignStatement "a" 1])] .undefined rootHeap
      = Res.ok (.num 1) (rootHeapWith [("a", .num 1)]) ∧
    evaluate none 3 (.Literal (.num 2)) 0 (rootHeapWith [("a", .num 1)])
      = Res.ok (.num 2) (rootHeapWith [("a", .num 1)]) ∧
    evaluate none 3 (.Literal (.num 1)) 0 (rootHeapWith [("a", .num 1)])
      = Res.ok (.num 1) (rootHeapWith [("a", .num 1)]) ∧
    strictEq (.num 2) (.num 1) = some false ∧
    evaluate none 4 fallthroughSwitch 0 rootHeap
      = Res.ok (.num 1) (rootHeapWith [("a", .num 1)]) :=
  ⟨rfl, rfl, rfl, rfl,
    (evaluate_switch_case_decided_by_own_test none 3 (.Literal (.num 1)) (.Literal (.num 2))
      [(some (.Literal (.num 1)), [assignStatement "a" 1])] [] [assignStatement "b" 2] 0
      rootHeap (rootHeapWith [("a", .num 1)]) (rootHeapWith [("a", .num 1)])
      (rootHeapWith [("a", .num 1)]) (.num 1) (.num 2) (.num 1) false rfl rfl rfl rfl).trans rfl⟩

/-- C10 as stated fails: in `switch (1) { default: d = 1; case 1: b = 2; }`
case 1 matches the discriminant, yet the statement of the default case is
executed, and first: the scope ends up binding `d` and then `b`. -/
theorem evaluate_switch_default_runs_despite_match :
    (evaluate none 4 defaultFirstSwitch 0 rootHeap).value? = some (.num 2) ∧
    ((evaluate none 4 defaultFirstSwitch 0 rootHeap).heap?.bind
      fun h => h.bindingsAt 0) = some [("d", .num 1), ("b", .num 2)] := by
  decide!

/-- C10 as amended: the statements of a default case are executed whenever the
scan reaches it, with no test and before the discriminant is looked at again,
whatever the tests of the cases before and after it; the scan then goes on with
the cases after it. -/
theorem evaluate_switch_default_runs_when_reached (config : Option Config) (fuel : Nat)
    (discriminant : Node) (pre post : List (Option Node × List Node))
    (consequent : List Node) (scope : Nat) (h h1 : Heap) (ret : Value)
    (hpre : switchCases (evaluate config fuel) discriminant scope pre .undefined h = Res.ok ret h1) :
    evaluate config (fuel + 1)
        (.SwitchStatement discriminant (pre ++ (none, consequent) :: post)) scope h =
      (switchConsequent (evaluate config fuel) scope consequent ret >>= fun r =>
        switchCases (evaluate config fuel) discriminant scope post r) h1 := by
  rw [evaluate_switch, switchCases_append, bind_apply, hpre]
  simp [switchCases]

/-- C10 as amended, at `switch (1) { default: d = 1; case 1: b = 2; }`: the
default case comes first, so it is reached at once, and the switch equals its
statement `d = 1` followed by the scan of `case 1: b = 2`. -/
theorem evaluate_switch_default_runs_when_reached_witness :
    switchCases (evaluate none 3) (.Literal (.num 1)) 0 [] .undefined rootHeap
      = Res.ok .undefined rootHeap ∧
    evaluate none 4 defaultFirstSwitch 0 rootHeap
      = Res.ok (.num 2) (rootHeapWith [("d", .num 1), ("b", .num 2)]) :=
  ⟨rfl,
    (evaluate_switch_default_runs_when_reached none 3 (.Literal (.num 1)) []
      [(some (.Literal (.num 1)), [assignStatement "b" 2])] [assignStatement "d" 1] 0
      rootHeap rootHeap .undefined rfl).trans rfl⟩

/-- C13, checked at the failing inputs `if (false) s`, `if (0) s` and
`if (x) s` with `x` unbound, for every statement `s` and whatever the host
binds `config` to: the if statement has no alternate and a falsy test, and
`evaluate` throws a `TypeError`, because it evaluates the absent alternate. -/
theorem evaluate_if_without_alternate_throws (config : Option Config) (consequent : Node) :
    (evaluate config 2 (.IfStatement (.Literal (.bool false)) consequent none) 0 rootHeap).thrown?
      = some (typeError "Cannot read properties of null (reading 'type')") ∧
    (evaluate config 2 (.IfStatement (.Literal (.num 0)) consequent none) 0 rootHeap).thrown?
      = some (typeError "Cannot read properties of null (reading 'type')") ∧
    (evaluate config 2 (.IfStatement (.Identifier "x") consequent none) 0 rootHeap).thrown?
      = some (typeError "Cannot read properties of null (reading 'type')") ∧
    (evaluate config 2 (.IfStatement (.Literal (.bool false)) consequent none) 0 rootHeap).value?
      = none := by
  refine ⟨?_, ?_, ?_, ?_⟩ <;> rfl

/-- C17, checked at the failing inputs `try { return 1 } catch (e) { } finally { }`
and `try { 1 } finally { }`, whatever the host binds `config` to: the try
block completes without an error, yet the try statement throws a `TypeError`
and returns neither the return signal nor any value: the result of the try
block is dropped and control falls through into the `ThrowStatement` case. -/
theorem evaluate_try_normal_completion_throws (config : Option Config) :
    (evaluate config 5 tryReturnStatement 0 rootHeap).thrown?
      = some (typeError "Cannot read properties of undefined (reading 'type')") ∧
    (evaluate config 5 tryReturnStatement 0 rootHeap).value? = none ∧
    (evaluate config 5 tryFinallyStatement 0 rootHeap).thrown?
      = some (typeError "Cannot read properties of undefined (reading 'type')") := by
  refine ⟨?_, ?_, ?_⟩ <;> rfl

/-- C19, checked at the failing input `void x` in a scope that binds `x` to
`5`, whatever the host binds `config` to: the expression returns `4`, not
`undefined`, and the scope binds `x` to `4` afterwards. The operator `void` is
not listed in the `UnaryExpression` case, so control falls through into the
`UpdateExpression` case, which decrements. The same happens for `delete x`. -/
theorem evaluate_void_decrements (config : Option Config) :
    (evaluate config 3 (.UnaryExpression "void" (.Identifier "x")) 0
        (rootHeapWith [("x", .num 5)])).value? = some (.num 4) ∧
    ((evaluate config 3 (.UnaryExpression "void" (.Identifier "x")) 0
        (rootHeapWith [("x", .num 5)])).heap?.bind fun h => h.bindingsAt 0)
      = some [("x", .num 4)] ∧
    ((evaluate config 3 (.UnaryExpression "delete" (.Identifier "x")) 0
        (rootHeapWith [("x", .num 5)])).heap?.bind fun h => h.bindingsAt 0)
      = some [("x", .num 4)] := by
  refine ⟨?_, ?_, ?_⟩ <;> rfl

/-- C20, checked at the failing input `[1 + 2, x, 4]` in a scope that binds
`x` to `5`, whatever the host binds `config` to: the array has length 3, but
its entries are `undefined`, `undefined` and `4`, not `3`, `5` and `4`: the
`ArrayExpression` case reads the `value` field of each element in place of
evaluating it. -/
theorem evaluate_array_takes_literal_values_only (config : Option Config) :
    (evaluate config 3 arrayLiteral 0 (rootHeapWith [("x", .num 5)])).value? = some (.ref 1) ∧
    ((evaluate config 3 arrayLiteral 0 (rootHeapWith [("x", .num 5)])).heap?.bind
        fun h => h.arrayAt 1) = some [.undefined, .undefined, .num 4] := by
  refine ⟨?_, ?_⟩ <;> rfl

/-! ## Claims about try statements, blocks and member assignment -/

theorem evaluate_try (config : Option Config) (fuel : Nat) (block : Node)
    (handler : Option (String × Node)) (finalizer : Option Node) (scope : Nat) :
    evaluate config (fuel + 1) (.TryStatement block handler finalizer) scope =
      evalTry (evaluate config fuel) block handler finalizer scope := rfl

/-- C14 as stated fails: in `try { ; } catch (e) { 5 } finally { }` the try
block raises the evaluator's own error for the empty statement, yet the catch
body is executed and its value `5` is the result; no error reaches the
caller. Likewise `try { debugger } catch (e) { } finally { }` returns
`undefined` and raises nothing. -/
theorem evaluate_try_catches_empty_statement_error :
    (evaluate none 4 tryEmptyStatement 0 rootHeap).value? = some (.num 5) ∧
    (evaluate none 4 tryEmptyStatement 0 rootHeap).isThrown = false ∧
    (evaluate none 4
      (.TryStatement (.BlockStatement [.DebuggerStatement]) (some ("e", .BlockStatement []))
        (some (.BlockStatement []))) 0 rootHeap).value? = some .undefined := by
  decide!

/-- C14 as amended: a try statement with a catch handler catches every value
that its try block throws, whatever raised it and wherever in the block: the
errors that the evaluator itself raises (for an empty statement, a debugger
statement, an unsupported node) are thrown values like those of a throw
statement. When the try clause (the block in a new scope) throws `err`, the
catch body is evaluated in a new scope, then the finally clause runs; the
statement returns what the catch body returned, or throws what it threw, unless
the finally clause itself throws. -/
theorem evaluate_try_catches_every_thrown_value (config : Option Config) (fuel : Nat)
    (block body : Node) (param : String) (finalizer : Option Node) (scope : Nat)
    (h h1 : Heap) (err : Value)
    (htry : (Scope.new (some (.string "block")) (some scope) >>= fun s =>
      evaluate config fuel block s) h = Res.thrown err h1) :
    (evaluate config (fuel + 1) (.TryStatement block (some (param, body)) finalizer) scope h =
      match (Scope.new (some (.string "block")) (some scope) >>= fun s =>
          evaluate config fuel body s) h1 with
      | .ok v h2 =>
        match (Scope.new (some (.string "block")) (some scope) >>= fun s =>
            evalChild (evaluate config fuel) finalizer s) h2 with
        | .ok _ h3 => Res.ok v h3
        | other => other
      | .thrown e h2 =>
        match (Scope.new (some (.string "block")) (some scope) >>= fun s =>
            evalChild (evaluate config fuel) finalizer s) h2 with
        | .ok _ h3 => Res.thrown e h3
        | other => other
      | other => other) ∧
    (∀ (s : Nat) (hs : Heap),
      evaluate config (fuel + 1) .EmptyStatement s hs
        = Res.thrown (.error "Error" "Uncaught SyntaxError: Unexpected token ';'") hs ∧
      evaluate config (fuel + 1) .DebuggerStatement s hs
        = Res.thrown (.error "Error" "Uncaught SyntaxError: Unexpected token 'debugger'") hs ∧
      ∀ (type : String) (start stop : Nat),
        (evaluate config (fuel + 1) (.Unsupported type start stop) s hs).isThrown = true) := by
  refine ⟨?_, fun s hs => ⟨rfl, rfl, fun _ _ _ => rfl⟩⟩
  rw [evaluate_try]
  simp only [evalTry, Scope.declare, pure_bind]
  rw [htry]

/-- C14 as amended, at `try { 1; ; } catch (e) { 5 } finally { }`: the empty
statement after `1` raises the evaluator's error, the catch body returns `5`. -/
theorem evaluate_try_catches_every_thrown_value_witness :
    (Scope.new (some (.string "block")) (some 0) >>= fun s =>
      evaluate none 3
        (.BlockStatement [.ExpressionStatement (.Literal (.num 1)), .EmptyStatement]) s) rootHeap
      = Res.thrown (.error "Error" "Uncaught SyntaxError: Unexpected token ';'")
          (rootWithBlocks 1) ∧
    evaluate none 4 tryLaterEmptyStatement 0 rootHeap = Res.ok (.num 5) (rootWithBlocks 3) :=
  ⟨rfl,
    (evaluate_try_catches_every_thrown_value none 3
      (.BlockStatement [.ExpressionStatement (.Literal (.num 1)), .EmptyStatement])
      (.BlockStatement [.ExpressionStatement (.Literal (.num 5))]) "e"
      (some (.BlockStatement [])) 0 rootHeap (rootWithBlocks 1)
      (.error "Error" "Uncaught SyntaxError: Unexpected token ';'") rfl).1.trans rfl⟩

/-- C15 as stated fails: in `try { throw 1 } catch (e) { 5 } finally { break }`
the finally block completes with a break signal, yet the result of the try
statement is the value `5` of the catch body, not that signal. -/
theorem evaluate_try_ignores_finally_signal :
    (evaluate none 4 tryFinallyBreakStatement 0 rootHeap).value? = some (.num 5) := by
  decide!

/-- C15 as amended: the finally block is evaluated, in a new scope, both when
the try block throws and when it completes, and its result `sig` is dropped,
whether or not it is a control signal. When the try block throws and the catch
body returns `v`, the result of the try statement is `v`, in the store that the
finally block leaves. When the try block completes, the store of the outcome is
the one that the finally block leaves. -/
theorem evaluate_try_drops_finally_result (config : Option Config) (fuel : Nat)
    (block body fin : Node) (param : String) (handler : Option (String × Node)) (scope : Nat)
    (h h1 h2 h3 : Heap) (err v tv sig : Value) :
    ((Scope.new (some (.string "block")) (some scope) >>= fun s =>
        evaluate config fuel block s) h = Res.thrown err h1 →
      (Scope.new (some (.string "block")) (some scope) >>= fun s =>
        evaluate config fuel body s) h1 = Res.ok v h2 →
      (Scope.new (some (.string "block")) (some scope) >>= fun s =>
        evaluate config fuel fin s) h2 = Res.ok sig h3 →
      evaluate config (fuel + 1) (.TryStatement block (some (param, body)) (some fin)) scope h
        = Res.ok v h3) ∧
    ((Scope.new (some (.string "block")) (some scope) >>= fun s =>
        evaluate config fuel block s) h = Res.ok tv h1 →
      (Scope.new (some (.string "block")) (some scope) >>= fun s =>
        evaluate config fuel fin s) h1 = Res.ok sig h2 →
      (evaluate config (fuel + 1) (.TryStatement block handler (some fin)) scope h).heap?
        = some h2) := by
  constructor
  · intro htry hcatch hfin
    rw [evaluate_try]
    simp only [evalTry, Scope.declare, pure_bind, evalChild]
    rw [htry]
    simp only
    rw [hcatch]
    simp only
    rw [hfin]
  · intro htry hfin
    rw [evaluate_try]
    simp only [evalTry, evalChild]
    rw [htry]
    simp only
    rw [hfin]
    rfl

/-- C15 as amended, at `try { throw 1 } catch (e) { 5 } finally { break }`
(the try block throws) and at `try { 1 } finally { }` (it completes). -/
theorem evaluate_try_drops_finally_result_witness :
    ((Scope.new (some (.string "block")) (some 0) >>= fun s =>
        evaluate none 3 (.BlockStatement [.ThrowStatement (.Literal (.num 1))]) s) rootHeap
      = Res.thrown (.num 1) (rootWithBlocks 1) ∧
     (Scope.new (some (.string "block")) (some 0) >>= fun s =>
        evaluate none 3 (.BlockStatement [.ExpressionStatement (.Literal (.num 5))]) s)
          (rootWithBlocks 1)
      = Res.ok (.num 5) (rootWithBlocks 2) ∧
     (Scope.new (some (.string "block")) (some 0) >>= fun s =>
        evaluate none 3 (.BlockStatement [.BreakStatement none]) s) (rootWithBlocks 2)
      = Res.ok (.interruption "break" .undefined none) (rootWithBlocks 3) ∧
     evaluate none 4 tryFinallyBreakStatement 0 rootHeap = Res.ok (.num 5) (rootWithBlocks 3)) ∧
    ((Scope.new (some (.string "block")) (some 0) >>= fun s =>
        evaluate none 3 (.BlockStatement [.ExpressionStatement (.Literal (.num 1))]) s) rootHeap
      = Res.ok (.num 1) (rootWithBlocks 1) ∧
     (Scope.new (some (.string "block")) (some 0) >>= fun s =>
        evaluate none 3 (.BlockStatement []) s) (rootWithBlocks 1)
      = Res.ok .undefined (rootWithBlocks 2) ∧
     (evaluate none 4 tryFinallyStatement 0 rootHeap).heap? = some (rootWithBlocks 2)) :=
  ⟨⟨rfl, rfl, rfl,
     (evaluate_try_drops_finally_result none 3
       (.BlockStatement [.ThrowStatement (.Literal (.num 1))])
       (.BlockStatement [.ExpressionStatement (.Literal (.num 5))])
       (.BlockStatement [.BreakStatement none]) "e" none 0
       rootHeap (rootWithBlocks 1) (rootWithBlocks 2) (rootWithBlocks 3)
       (.num 1) (.num 5) .undefined (.interruption "break" .undefined none)).1 rfl rfl rfl⟩,
   ⟨rfl, rfl,
     (evaluate_try_drops_finally_result none 3
       (.BlockStatement [.ExpressionStatement (.Literal (.num 1))])
       (.BlockStatement []) (.BlockStatement []) "e" none 0
       rootHeap (rootWithBlocks 1) (rootWithBlocks 2) (rootWithBlocks 2)
       .undefined .undefined (.num 1) .undefined).2 rfl rfl⟩⟩

/-- C18, checked at the failing input `o.p += (o.p = 10)` with `o.p = 1`: as
the file stands, with no binding of `config`, the assignment throws a
`ReferenceError` and stores nothing; and under a host whose global `config`
makes member targets resolve, it stores and returns `20`, the value `10` that
the right-hand side assigned plus `10`, not `1 + 10`: the target is read after
the right-hand side was evaluated. -/
theorem evaluate_member_compound_uses_value_after_rhs :
    (evaluate (some pairConfig) 3 compoundMemberAssignment 0 objectHeap).value?
      = some (.num 20) ∧
    ((evaluate (some pairConfig) 3 compoundMemberAssignment 0 objectHeap).heap?.bind
      fun h => h.objectAt 1) = some [("p", .num 20)] ∧
    (evaluate none 3 compoundMemberAssignment 0 objectHeap).thrown?
      = some (referenceError "config is not defined") := by
  decide!

/-- The values of a run of statements that produce no control signal are
passed over by the loop of a block: it goes on with the statements after them,
holding the last of the values. -/
theorem evalBlock_append (ev : Node → Nat → M Value) (scope : Nat) (rest : List Node) :
    ∀ (pre : List Node) (ret : Value) (h h1 : Heap) (vs : List Value),
      evalAll ev scope pre h = Res.ok vs h1 → (∀ v ∈ vs, v.isInterruption = false) →
      evalBlock ev scope (pre ++ rest) ret h = evalBlock ev scope rest (vs.getLastD ret) h1 := by
  intro pre
  induction pre with
  | nil =>
    intro ret h h1 vs hall _
    cases hall
    rfl
  | cons n ns ih =>
    intro ret h h1 vs hall hvs
    simp only [evalAll, bind_apply] at hall
    cases hn : ev n scope h with
    | ok v hb =>
      rw [hn] at hall
      simp only at hall
      cases hns : evalAll ev scope ns hb with
      | ok ws hc =>
        rw [hns] at hall
        cases hall
        have hv : v.isInterruption = false := hvs v (List.mem_cons_self _ _)
        have hws : ∀ w ∈ ws, w.isInterruption = false :=
          fun w hw => hvs w (List.mem_cons_of_mem _ hw)
        have hlast : (v :: ws).getLastD ret = ws.getLastD v := by
          cases ws <;> simp [List.getLastD]
        simp only [List.cons_append, evalBlock, bind_apply, hn, hv, Bool.false_eq_true, if_false]
        rw [hlast]
        exact ih v hb _ ws hns hws
      | thrown e hc => rw [hns] at hall; cases hall
      | timeout => rw [hns] at hall; cases hall
      | unmodelled => rw [hns] at hall; cases hall
    | thrown e hb => rw [hn] at hall; cases hall
    | timeout => rw [hn] at hall; cases hall
    | unmodelled => rw [hn] at hall; cases hall

theorem evaluate_block (config : Option Config) (fuel : Nat) (body : List Node) (scope : Nat) :
    evaluate config (fuel + 1) (.BlockStatement body) scope =
      evalBlock (evaluate config fuel) scope body .undefined := rfl

/-- C16: when the statements `pre` before statement `s` evaluate to values
`vs` none of which is a control signal and `s` evaluates to a control signal
`sig`, the block `pre ++ s :: post` returns exactly `sig`, in the store that
`s` left, whatever the statements `post` are: none of them is evaluated. And
when all statements of a block evaluate to values `vs` none of which is a
control signal, the block returns the last of them (`undefined` for an empty
block). -/
theorem evaluate_block_propagates_first_signal (config : Option Config) (fuel : Nat)
    (pre post body : List Node) (s : Node) (scope : Nat) (h h1 h2 : Heap)
    (vs : List Value) (sig : Value) :
    (evalAll (evaluate config fuel) scope pre h = Res.ok vs h1 →
      (∀ v ∈ vs, v.isInterruption = false) →
      evaluate config fuel s scope h1 = Res.ok sig h2 →
      sig.isInterruption = true →
      evaluate config (fuel + 1) (.BlockStatement (pre ++ s :: post)) scope h = Res.ok sig h2) ∧
    (evalAll (evaluate config fuel) scope body h = Res.ok vs h1 →
      (∀ v ∈ vs, v.isInterruption = false) →
      evaluate config (fuel + 1) (.BlockStatement body) scope h
        = Res.ok (vs.getLastD .undefined) h1) := by
  constructor
  · intro hpre hvs hs hsig
    rw [evaluate_block, evalBlock_append _ _ _ pre .undefined h h1 vs hpre hvs]
    simp only [evalBlock, bind_apply, hs, hsig]
    rfl
  · intro hall hvs
    have := evalBlock_append (evaluate config fuel) scope [] body .undefined h h1 vs hall hvs
    rw [List.append_nil] at this
    rw [evaluate_block, this]
    rfl

/-- C16, at the block `{ 1; return 2; 3; }`, which returns the return signal
with payload `2`, and at the block `{ 1; 3; }`, which returns `3`. -/
theorem evaluate_block_propagates_first_signal_witness :
    (evalAll (evaluate none 3) 0 [.ExpressionStatement (.Literal (.num 1))] rootHeap
        = Res.ok [.num 1] rootHeap ∧
      (∀ v ∈ [Value.num 1], v.isInterruption = false) ∧
      evaluate none 3 (.ReturnStatement (some (.Literal (.num 2)))) 0 rootHeap
        = Res.ok (.interruption "return" (.num 2) none) rootHeap ∧
      (Value.interruption "return" (.num 2) none).isInterruption = true ∧
      evaluate none 4 blockWithReturn 0 rootHeap
        = Res.ok (.interruption "return" (.num 2) none) rootHeap) ∧
    (evalAll (evaluate none 3) 0
        [.ExpressionStatement (.Literal (.num 1)), .ExpressionStatement (.Literal (.num 3))]
        rootHeap = Res.ok [.num 1, .num 3] rootHeap ∧
      (∀ v ∈ [Value.num 1, Value.num 3], v.isInterruption = false) ∧
      evaluate none 4
        (.BlockStatement
          [.ExpressionStatement (.Literal (.num 1)), .ExpressionStatement (.Literal (.num 3))])
        0 rootHeap = Res.ok (.num 3) rootHeap) :=
  ⟨⟨rfl, by decide, rfl, rfl,
     (evaluate_block_propagates_first_signal none 3
       [.ExpressionStatement (.Literal (.num 1))] [.ExpressionStatement (.Literal (.num 3))] []
       (.ReturnStatement (some (.Literal (.num 2)))) 0 rootHeap rootHeap rootHeap
       [.num 1] (.interruption "return" (.num 2) none)).1 rfl (by decide) rfl rfl⟩,
   ⟨rfl, by decide,
     (evaluate_block_propagates_first_signal none 3 [] []
       [.ExpressionStatement (.Literal (.num 1)), .ExpressionStatement (.Literal (.num 3))]
       .EmptyStatement 0 rootHeap rootHeap rootHeap
       [.num 1, .num 3] .undefined).2 rfl (by decide)⟩⟩


/-! ## Claims about pure expressions -/

theorem Res.sameIn_bind {α β : Type} (m1 m2 : M α) (f1 f2 : α → M β) (h1 h2 : Heap)
    (P : α → Prop) (Q : β → Prop) (hm : (m1 h1).sameIn h1 (m2 h2) h2 P)
    (hf : ∀ a, P a → (f1 a h1).sameIn h1 (f2 a h2) h2 Q) :
    ((m1 >>= f1) h1).sameIn h1 ((m2 >>= f2) h2) h2 Q := by
  rw [bind_apply, bind_apply]
  cases hr1 : m1 h1 <;> cases hr2 : m2 h2 <;> rw [hr1, hr2] at hm <;>
    simp only [Res.sameIn] at hm ⊢
  · obtain ⟨rfl, rfl, rfl, hp⟩ := hm
    exact hf _ hp
  · exact hm

theorem Res.sameIn_liftOpt {α : Type} (o : Option α) (h1 h2 : Heap) (P : α → Prop)
    (hp : ∀ a, o = some a → P a) : (liftOpt o h1).sameIn h1 (liftOpt o h2) h2 P := by
  cases o with
  | none => trivial
  | some a => exact ⟨rfl, rfl, rfl, hp a rfl⟩

theorem safeNum_isPrimitive {n : Int} {v : Value} (h : safeNum n = some v) :
    v.isPrimitive = true := by
  unfold safeNum at h
  split at h
  · cases h; rfl
  · cases h

theorem stringToNumber_isPrimitive {s : String} {v : Value} (h : stringToNumber s = some v) :
    v.isPrimitive = true := by
  unfold stringToNumber at h
  split at h
  · cases h; rfl
  · split at h
    · exact safeNum_isPrimitive h
    · split at h
      · cases h; rfl
      · cases h

theorem toNumber_isPrimitive {a v : Value} (h : toNumber a = some v) : v.isPrimitive = true := by
  cases a with
  | num n => exact safeNum_isPrimitive h
  | str s => exact stringToNumber_isPrimitive h
  | ref _ => cases h
  | error _ _ => cases h
  | interruption _ _ _ => cases h
  | _ => cases h; rfl

theorem arith_isPrimitive {op : Int → Int → Option Value}
    (hop : ∀ x y v, op x y = some v → v.isPrimitive = true) {l r v : Value}
    (h : arith op l r = some v) : v.isPrimitive = true := by
  unfold arith at h
  split at h
  · exact hop _ _ _ h
  · cases h; rfl
  · cases h

theorem map_isPrimitive {o : Option Bool} {g : Bool → Value} {v : Value}
    (h : o.map g = some v) (hg : ∀ b, (g b).isPrimitive = true) : v.isPrimitive = true := by
  cases o with
  | none => cases h
  | some b => cases h; exact hg b

theorem plus_isPrimitive {l r v : Value} (h : plus l r = some v) : v.isPrimitive = true := by
  unfold plus at h
  split at h
  · cases ht : toStr _ with
    | none => rw [ht] at h; cases h
    | some t => rw [ht] at h; cases h; rfl
  · cases ht : toStr _ with
    | none => rw [ht] at h; cases h
    | some t => rw [ht] at h; cases h; rfl
  · exact arith_isPrimitive (fun _ _ _ hv => safeNum_isPrimitive hv) h

theorem binaryOp_isPrimitive {operator : String} {l r v : Value}
    (h : binaryOp operator l r = some v) : v.isPrimitive = true := by
  unfold binaryOp at h
  by_cases c0 : operator = "=="
  · rw [if_pos c0] at h
    exact map_isPrimitive h (fun _ => rfl)
  rw [if_neg c0] at h
  by_cases c1 : operator = "!="
  · rw [if_pos c1] at h
    exact map_isPrimitive h (fun _ => rfl)
  rw [if_neg c1] at h
  by_cases c2 : operator = "==="
  · rw [if_pos c2] at h
    exact map_isPrimitive h (fun _ => rfl)
  rw [if_neg c2] at h
  by_cases c3 : operator = "!=="
  · rw [if_pos c3] at h
    exact map_isPrimitive h (fun _ => rfl)
  rw [if_neg c3] at h
  by_cases c4 : operator = "<"
  · rw [if_pos c4] at h
    exact map_isPrimitive h (fun _ => rfl)
  rw [if_neg c4] at h
  by_cases c5 : operator = "<="
  · rw [if_pos c5] at h
    exact map_isPrimitive h (fun _ => rfl)
  rw [if_neg c5] at h
  by_cases c6 : operator = ">"
  · rw [if_pos c6] at h
    exact map_isPrimitive h (fun _ => rfl)
  rw [if_neg c6] at h
  by_cases c7 : operator = ">="
  · rw [if_pos c7] at h
    exact map_isPrimitive h (fun _ => rfl)
  rw [if_neg c7] at h
  by_cases c8 : operator = "+"
  · rw [if_pos c8] at h
    exact plus_isPrimitive h
  rw [if_neg c8] at h
  by_cases c9 : operator = "-"
  · rw [if_pos c9] at h
    exact arith_isPrimitive (fun _ _ _ hv => safeNum_isPrimitive hv) h
  rw [if_neg c9] at h
  by_cases c10 : operator = "*"
  · rw [if_pos c10] at h
    exact arith_isPrimitive (fun _ _ _ hv => safeNum_isPrimitive hv) h
  rw [if_neg c10] at h
  by_cases c11 : operator = "%"
  · rw [if_pos c11] at h
    refine arith_isPrimitive (fun x y w hv => ?_) h
    split at hv <;> cases hv <;> rfl
  rw [if_neg c11] at h
  cases h

theorem unaryOp_isPrimitive {operator : String} {a v : Value}
    (h : unaryOp operator a = some v) : v.isPrimitive = true := by
  unfold unaryOp at h
  by_cases c0 : operator = "-"
  · rw [if_pos c0] at h
    cases hn : toNumber a with
    | none => rw [hn] at h; cases h
    | some w =>
      have hw := toNumber_isPrimitive hn
      rw [hn] at h
      cases w <;> cases h <;> first | rfl | exact hw
  rw [if_neg c0] at h
  by_cases c1 : operator = "+"
  · rw [if_pos c1] at h
    exact toNumber_isPrimitive h
  rw [if_neg c1] at h
  by_cases c2 : operator = "!"
  · rw [if_pos c2] at h
    cases h; rfl
  rw [if_neg c2] at h
  by_cases c3 : operator = "~"
  · rw [if_pos c3] at h
    split at h
    · split at h
      · cases h; rfl
      · cases h
    · cases h; rfl
    · cases h
  rw [if_neg c3] at h
  by_cases c4 : operator = "typeof"
  · rw [if_pos c4] at h
    cases a <;> cases h <;> rfl
  rw [if_neg c4] at h
  cases h

theorem toPrimitive_primitive (ev : Node → Nat → M Value) {v : Value}
    (hv : v.isPrimitive = true) : toPrimitive ev v = pure v := by
  cases v <;> first | rfl | cases hv

theorem typeOf_primitive {v : Value} (hv : v.isPrimitive = true) :
    typeOf v = liftOpt (unaryOp "typeof" v) := by
  cases v <;> first | rfl | cases hv

theorem hostBinary_primitive (ev : Node → Nat → M Value) (operator : String) {l r : Value}
    (hl : l.isPrimitive = true) (hr : r.isPrimitive = true) :
    hostBinary ev operator l r = liftOpt (binaryOp operator l r) := by
  unfold hostBinary
  rw [toPrimitive_primitive ev hl, toPrimitive_primitive ev hr]
  split
  · rw [pure_bind, pure_bind]
  · rfl

theorem hostUnary_primitive (ev : Node → Nat → M Value) (operator : String) {v : Value}
    (hv : v.isPrimitive = true) :
    hostUnary ev operator v = liftOpt (unaryOp operator v) := by
  unfold hostUnary
  rw [toPrimitive_primitive ev hv]
  split
  · rfl
  · rw [pure_bind]

theorem evaluate_unary (config : Option Config) (fuel : Nat) (u : PureUnary) (argument : Node)
    (scope : Nat) :
    evaluate config (fuel + 1) (.UnaryExpression u.operator argument) scope =
      (evaluate config fuel argument scope >>= fun v =>
        match u with
        | .typeof => typeOf v
        | _ => hostUnary (evaluate config fuel) u.operator v) := by
  cases u <;> rfl

theorem evaluate_logical (config : Option Config) (fuel : Nat) (operator : String)
    (left right : Node) (scope : Nat) :
    evaluate config (fuel + 1) (.LogicalExpression operator left right) scope =
      if operator = "&&" then
        (evaluate config fuel left scope >>= fun l =>
          if l.truthy then evaluate config fuel right scope else pure l)
      else if operator = "||" then
        (evaluate config fuel left scope >>= fun l =>
          if l.truthy then pure l else evaluate config fuel right scope)
      else evalBinary (evaluate config fuel) operator left right scope := rfl

theorem evalBinary_sameIn (ev : Node → Nat → M Value) (operator : String) (left right : Node)
    (s1 s2 : Nat) (h1 h2 : Heap)
    (hl : (ev left s1 h1).sameIn h1 (ev left s2 h2) h2 fun v => v.isPrimitive = true)
    (hr : (ev right s1 h1).sameIn h1 (ev right s2 h2) h2 fun v => v.isPrimitive = true) :
    (evalBinary ev operator left right s1 h1).sameIn h1
      (evalBinary ev operator left right s2 h2) h2 fun v => v.isPrimitive = true := by
  unfold evalBinary
  refine Res.sameIn_bind _ _ _ _ _ _ _ _ hl fun l pl =>
    Res.sameIn_bind _ _ _ _ _ _ _ _ hr fun r pr => ?_
  split
  · rw [hostBinary_primitive ev operator pl pr]
    exact Res.sameIn_liftOpt _ _ _ _ fun a ha => binaryOp_isPrimitive ha
  · exact ⟨rfl, rfl, rfl⟩

theorem evaluate_pure_sameIn (config : Option Config) :
    ∀ (fuel : Nat) (e : PureExpr) (s1 s2 : Nat) (h1 h2 : Heap),
      (∀ x ∈ e.identifiers,
        Scope.get h1 s1 x = Scope.get h2 s2 x ∧ h1.resolvesPrimitive s1 x = true) →
      (evaluate config fuel e.toNode s1 h1).sameIn h1 (evaluate config fuel e.toNode s2 h2) h2
        fun v => v.isPrimitive = true := by
  intro fuel
  induction fuel with
  | zero => intro e s1 s2 h1 h2 _; trivial
  | succ n ih =>
    intro e s1 s2 h1 h2 hx
    cases e with
    | literal value => exact ⟨rfl, rfl, rfl, by cases value <;> rfl⟩
    | identifier name =>
      obtain ⟨heq, hp⟩ := hx name (List.mem_singleton.mpr rfl)
      show (liftOpt (Scope.get h1 s1 name) h1).sameIn h1 (liftOpt (Scope.get h2 s2 name) h2) h2 _
      rw [← heq]
      refine Res.sameIn_liftOpt _ _ _ _ fun a ha => ?_
      simp only [Heap.resolvesPrimitive, ha] at hp
      exact hp
    | binary operator left right =>
      have hl := ih left s1 s2 h1 h2 fun x hm => hx x (List.mem_append_left _ hm)
      have hr := ih right s1 s2 h1 h2 fun x hm => hx x (List.mem_append_right _ hm)
      exact evalBinary_sameIn _ _ _ _ _ _ _ _ hl hr
    | unary u argument =>
      rw [PureExpr.toNode, evaluate_unary, evaluate_unary]
      refine Res.sameIn_bind _ _ _ _ _ _ _ _ (ih argument s1 s2 h1 h2 hx) fun v pv => ?_
      cases u
      case typeof =>
        show (typeOf v h1).sameIn h1 (typeOf v h2) h2 _
        rw [typeOf_primitive pv]
        exact Res.sameIn_liftOpt _ _ _ _ fun a ha => unaryOp_isPrimitive ha
      all_goals
        simp only [hostUnary_primitive _ _ pv]
        exact Res.sameIn_liftOpt _ _ _ _ fun a ha => unaryOp_isPrimitive ha
    | logical operator left right =>
      have hl := ih left s1 s2 h1 h2 fun x hm => hx x (List.mem_append_left _ hm)
      have hr := ih right s1 s2 h1 h2 fun x hm => hx x (List.mem_append_right _ hm)
      rw [PureExpr.toNode, evaluate_logical, evaluate_logical]
      split
      · refine Res.sameIn_bind _ _ _ _ _ _ _ _ hl fun l pl => ?_
        split
        · exact hr
        · exact ⟨rfl, rfl, rfl, pl⟩
      · split
        · refine Res.sameIn_bind _ _ _ _ _ _ _ _ hl fun l pl => ?_
          split
          · exact ⟨rfl, rfl, rfl, pl⟩
          · exact hr
        · exact evalBinary_sameIn _ _ _ _ _ _ _ _ hl hr
    | conditional test consequent alternate =>
      have ht := ih test s1 s2 h1 h2 fun x hm =>
        hx x (List.mem_append_left _ (List.mem_append_left _ hm))
      have hc := ih consequent s1 s2 h1 h2 fun x hm =>
        hx x (List.mem_append_left _ (List.mem_append_right _ hm))
      have ha := ih alternate s1 s2 h1 h2 fun x hm => hx x (List.mem_append_right _ hm)
      refine Res.sameIn_bind _ _ _ _ _ _ _ _ ht fun t _ => ?_
      show ((if t.truthy = true then evaluate config n consequent.toNode s1
          else evaluate config n alternate.toNode s1) h1).sameIn h1
        ((if t.truthy = true then evaluate config n consequent.toNode s2
          else evaluate config n alternate.toNode s2) h2) h2 _
      split
      · exact hc
      · exact ha

theorem Res.sameIn_outcome {α : Type} {r1 r2 : Res α} {h1 h2 : Heap} {P : α → Prop}
    (hs : r1.sameIn h1 r2 h2 P) : r1.outcome = r2.outcome := by
  cases r1 <;> cases r2 <;> simp only [Res.sameIn] at hs <;> first
    | rfl
    | (obtain ⟨rfl, _⟩ := hs; rfl)

theorem Res.sameIn_keeps {α : Type} {r1 r2 : Res α} {h1 h2 : Heap} {P : α → Prop}
    (hs : r1.sameIn h1 r2 h2 P) :
    (∀ k, r1.heap? = some k → k = h1) ∧ (∀ k, r2.heap? = some k → k = h2) := by
  cases r1 <;> cases r2 <;> simp only [Res.sameIn] at hs
  · obtain ⟨_, rfl, rfl, _⟩ := hs
    exact ⟨fun k hk => by cases hk; rfl, fun k hk => by cases hk; rfl⟩
  · obtain ⟨_, rfl, rfl⟩ := hs
    exact ⟨fun k hk => by cases hk; rfl, fun k hk => by cases hk; rfl⟩
  · exact ⟨fun k hk => (by cases hk), fun k hk => (by cases hk)⟩
  · exact ⟨fun k hk => (by cases hk), fun k hk => (by cases hk)⟩

theorem isTimeout_liftOpt {α : Type} (o : Option α) (h : Heap) :
    (liftOpt o h).isTimeout = false := by
  cases o <;> rfl

theorem isTimeout_bind {α β : Type} (m : M α) (f : α → M β) (h : Heap) (P : α → Prop)
    (hs : (m h).sameIn h (m h) h P) (hm : (m h).isTimeout = false)
    (hf : ∀ a, P a → (f a h).isTimeout = false) : ((m >>= f) h).isTimeout = false := by
  rw [bind_apply]
  cases hr : m h with
  | ok a k =>
    rw [hr] at hs
    obtain ⟨_, rfl, _, hp⟩ := hs
    exact hf a hp
  | thrown e k => rfl
  | timeout => rw [hr] at hm; cases hm
  | unmodelled => rfl

theorem isTimeout_evalBinary (ev : Node → Nat → M Value) (operator : String) (left right : Node)
    (scope : Nat) (h : Heap)
    (hl : (ev left scope h).isTimeout = false) (hr : (ev right scope h).isTimeout = false)
    (kl : (ev left scope h).sameIn h (ev left scope h) h fun v => v.isPrimitive = true)
    (kr : (ev right scope h).sameIn h (ev right scope h) h fun v => v.isPrimitive = true) :
    (evalBinary ev operator left right scope h).isTimeout = false := by
  unfold evalBinary
  refine isTimeout_bind _ _ _ _ kl hl fun l pl => isTimeout_bind _ _ _ _ kr hr fun r pr => ?_
  split
  · rw [hostBinary_primitive ev operator pl pr]
    exact isTimeout_liftOpt _ _
  · rfl

theorem evaluate_pure_terminates (config : Option Config) :
    ∀ (fuel : Nat) (e : PureExpr) (scope : Nat) (h : Heap),
      (∀ x ∈ e.identifiers, h.resolvesPrimitive scope x = true) → e.depth ≤ fuel →
      (evaluate config fuel e.toNode scope h).isTimeout = false := by
  intro fuel
  induction fuel with
  | zero =>
    intro e scope h _ hd
    cases e <;> simp [PureExpr.depth] at hd
  | succ n ih =>
    intro e scope h hx hd
    have same : ∀ (e : PureExpr), (∀ x ∈ e.identifiers, h.resolvesPrimitive scope x = true) →
        (evaluate config n e.toNode scope h).sameIn h (evaluate config n e.toNode scope h) h
          fun v => v.isPrimitive = true :=
      fun e he => evaluate_pure_sameIn config n e scope scope h h fun x hm => ⟨rfl, he x hm⟩
    cases e with
    | literal value => rfl
    | identifier name => exact isTimeout_liftOpt _ _
    | binary operator left right =>
      simp only [PureExpr.depth] at hd
      have xl : ∀ x ∈ left.identifiers, h.resolvesPrimitive scope x = true :=
        fun x hm => hx x (List.mem_append_left _ hm)
      have xr : ∀ x ∈ right.identifiers, h.resolvesPrimitive scope x = true :=
        fun x hm => hx x (List.mem_append_right _ hm)
      exact isTimeout_evalBinary _ _ _ _ _ _ (ih left scope h xl (by omega))
        (ih right scope h xr (by omega)) (same left xl) (same right xr)
    | unary u argument =>
      simp only [PureExpr.depth] at hd
      rw [PureExpr.toNode, evaluate_unary]
      refine isTimeout_bind _ _ _ _ (same argument hx) (ih argument scope h hx (by omega))
        fun v pv => ?_
      cases u
      case typeof =>
        show (typeOf v h).isTimeout = false
        rw [typeOf_primitive pv]
        exact isTimeout_liftOpt _ _
      all_goals
        simp only [hostUnary_primitive _ _ pv]
        exact isTimeout_liftOpt _ _
    | logical operator left right =>
      simp only [PureExpr.depth] at hd
      have xl : ∀ x ∈ left.identifiers, h.resolvesPrimitive scope x = true :=
        fun x hm => hx x (List.mem_append_left _ hm)
      have xr : ∀ x ∈ right.identifiers, h.resolvesPrimitive scope x = true :=
        fun x hm => hx x (List.mem_append_right _ hm)
      have hl := ih left scope h xl (by omega)
      have hr := ih right scope h xr (by omega)
      rw [PureExpr.toNode, evaluate_logical]
      split
      · refine isTimeout_bind _ _ _ _ (same left xl) hl fun l _ => ?_
        split
        · exact hr
        · rfl
      · split
        · refine isTimeout_bind _ _ _ _ (same left xl) hl fun l _ => ?_
          split
          · rfl
          · exact hr
        · exact isTimeout_evalBinary _ _ _ _ _ _ hl hr (same left xl) (same right xr)
    | conditional test consequent alternate =>
      simp only [PureExpr.depth] at hd
      have xt : ∀ x ∈ test.identifiers, h.resolvesPrimitive scope x = true :=
        fun x hm => hx x (List.mem_append_left _ (List.mem_append_left _ hm))
      have xc : ∀ x ∈ consequent.identifiers, h.resolvesPrimitive scope x = true :=
        fun x hm => hx x (List.mem_append_left _ (List.mem_append_right _ hm))
      have xa : ∀ x ∈ alternate.identifiers, h.resolvesPrimitive scope x = true :=
        fun x hm => hx x (List.mem_append_right _ hm)
      refine isTimeout_bind _ _ _ _ (same test xt) (ih test scope h xt (by omega)) fun t _ => ?_
      show ((if t.truthy = true then evaluate config n consequent.toNode scope
        else evaluate config n alternate.toNode scope) h).isTimeout = false
      split
      · exact ih consequent scope h xc (by omega)
      · exact ih alternate scope h xa (by omega)

/-- C12 as stated fails: both scopes of `counterHeap` resolve `x` through `get`
to the same value, an object whose `valueOf` is a counter of the host. The
expression `x + 1` evaluated in the one scope returns `2`; evaluated after that
in the other scope, which still resolves `x` to that same value, it returns
`3`. The bindings of both scopes are the same throughout. -/
theorem evaluate_pure_expression_depends_on_host_state :
    Scope.get counterHeap 0 "x" = some (.ref 1) ∧
    Scope.get counterHeap 1 "x" = some (.ref 1) ∧
    (evaluate none 2 incrementExpr.toNode 0 counterHeap).value? = some (.num 2) ∧
    ((evaluate none 2 incrementExpr.toNode 0 counterHeap).heap?.bind
      fun h => Scope.get h 0 "x") = some (.ref 1) ∧
    ((evaluate none 2 incrementExpr.toNode 0 counterHeap).heap?.bind
      fun h => Scope.get h 1 "x") = some (.ref 1) ∧
    ((evaluate none 2 incrementExpr.toNode 0 counterHeap).heap?.bind
      fun h => h.bindingsAt 0) = counterHeap.bindingsAt 0 ∧
    ((evaluate none 2 incrementExpr.toNode 0 counterHeap).heap?.bind
      fun h => h.bindingsAt 1) = counterHeap.bindingsAt 1 ∧
    ((evaluate none 2 incrementExpr.toNode 0 counterHeap).heap?.bind
      fun h => (evaluate none 2 incrementExpr.toNode 1 h).value?) = some (.num 3) := by
  decide!

/-- C12 as amended: for every pure expression and every two scope chains, each
in a store of its own or both in one, in which each identifier of the
expression resolves through `get` to the same value and that value is a
primitive (not an object), evaluating the expression in the one and in the
other ends the same way: the same value is returned, or the same value is
thrown. Either evaluation leaves its store, and so the bindings of every
scope, as it was; and with fuel for the depth of the expression the evaluation
does not run out of fuel. -/
theorem evaluate_pure_expression_deterministic (config : Option Config) (fuel : Nat)
    (e : PureExpr) (s1 s2 : Nat) (h1 h2 : Heap)
    (hx : ∀ x ∈ e.identifiers,
      Scope.get h1 s1 x = Scope.get h2 s2 x ∧ h1.resolvesPrimitive s1 x = true) :
    (evaluate config fuel e.toNode s1 h1).outcome = (evaluate config fuel e.toNode s2 h2).outcome ∧
    (∀ k, (evaluate config fuel e.toNode s1 h1).heap? = some k → k = h1) ∧
    (∀ k, (evaluate config fuel e.toNode s2 h2).heap? = some k → k = h2) ∧
    (e.depth ≤ fuel → (evaluate config fuel e.toNode s1 h1).isTimeout = false) :=
  ⟨Res.sameIn_outcome (evaluate_pure_sameIn config fuel e s1 s2 h1 h2 hx),
   (Res.sameIn_keeps (evaluate_pure_sameIn config fuel e s1 s2 h1 h2 hx)).1,
   (Res.sameIn_keeps (evaluate_pure_sameIn config fuel e s1 s2 h1 h2 hx)).2,
   evaluate_pure_terminates config fuel e s1 h1 fun x hm => (hx x hm).2⟩

/-- C12 as amended, at the expression `x + 1`, in the child scope of the store
where the parent binds `x` to `1`, and in the only scope of a store that binds
`x` to `1`: both evaluations return `2`. -/
theorem evaluate_pure_expression_deterministic_witness :
    (∀ x ∈ incrementExpr.identifiers,
      Scope.get parentChildHeap 1 x = Scope.get (singleScopeHeap (.num 1)) 0 x ∧
      parentChildHeap.resolvesPrimitive 1 x = true) ∧
    (evaluate none 2 incrementExpr.toNode 1 parentChildHeap).outcome = .value (.num 2) ∧
    ((evaluate none 2 incrementExpr.toNode 1 parentChildHeap).outcome
        = (evaluate none 2 incrementExpr.toNode 0 (singleScopeHeap (.num 1))).outcome ∧
      (∀ k, (evaluate none 2 incrementExpr.toNode 1 parentChildHeap).heap? = some k →
        k = parentChildHeap) ∧
      (∀ k, (evaluate none 2 incrementExpr.toNode 0 (singleScopeHeap (.num 1))).heap? = some k →
        k = singleScopeHeap (.num 1)) ∧
      (incrementExpr.depth ≤ 2 →
        (evaluate none 2 incrementExpr.toNode 1 parentChildHeap).isTimeout = false)) :=
  ⟨by decide, by decide,
    evaluate_pure_expression_deterministic none 2 incrementExpr 1 0 parentChildHeap
      (singleScopeHeap (.num 1)) (by decide)⟩

end JsEval
